import Mathlib

/-!
Shallow embedding of the lox tree-walking interpreter (crates: lexer tokens,
ast, parser, runtime) and verification of its specification.

Modelling conventions:
- Rust i64 is modelled as Int and f64 values as ℚ. Float arithmetic is
  idealized as exact rational arithmetic except where a verified statement
  depends on rounding: the i64-to-f64 casts and the f64 quotient of the
  Integer-by-Integer division path are rounded to the 53-bit significand
  grid by roundF64 (round to nearest, ties to even, unbounded exponent —
  exact for the normal, non-overflowing range, which covers every value
  that path can reach).
- The interpreter and the recursive-descent productions are fuel-indexed
  total functions; running out of fuel is the distinguished error
  RErr.outOfFuel (resp. PErr.outOfFuel), never confused with a program error.
- Rust panics (unreachable! and unwrap of None) are the distinguished
  error value bug.
- Rc/RefCell shared environments are embedded by value, with block exit
  reading the mutated parent back out of the child scope.
-/

namespace Lox

/-- Token types of the scanner output. The file token_type.rs is not part of
the sources; the constructor set is reconstructed from the parser, the
scanner keyword table and the spec of the token stream (section 6). -/
inductive TokenType
| LeftParen
| RightParen
| LeftBrace
| RightBrace
| Comma
| Dot
| Minus
| Plus
| Semicolon
| Slash
| Star
| Bang
| BangEqual
| Equal
| EqualEqual
| Greater
| GreaterEqual
| Less
| LessEqual
| Question
| Print
| Colon
| Identifier
| String
| Number
| And
| Class
| Else
| False
| Fun
| For
| If
| Nil
| Or
| Return
| Super
| This
| True
| Var
| While
| Break
| Continue
| EOF
deriving DecidableEq, Repr

/-- Literal payload of a token (token_literal.rs). -/
inductive TokenLiteral
| String (s : String)
| Number (n : ℚ)
deriving DecidableEq, Repr

/-- Token (token/mod.rs). -/
structure Token where
  token_type : TokenType
  lexeme : String
  line : Nat
  literal : Option TokenLiteral
deriving DecidableEq, Repr

/-- Parse error kinds (parser/src/error/mod.rs); the spelling
ExpressionExprected is the source's. -/
inductive ParserErrorKind
| TokenExpected (c : Char)
| ExpressionExprected
| MissingLeftHandOperand
| IdentifierExpected
deriving DecidableEq, Repr

/-- Result channel of the embedded parser: a structured parse error, fuel
exhaustion of the embedding, or a panic (unwrap of None in the source). -/
inductive PErr
| kind (k : ParserErrorKind)
| outOfFuel
| bug
deriving DecidableEq, Repr

/-- Binary and unary operators (ast/src/operator.rs). -/
inductive Operator
| Equal
| NotEqual
| Less
| LessOrEqual
| Greater
| GreaterOrEqual
| Addition
| Subtraction
| Multiplication
| Division
| Negation
| Assignment
| Conjunction
| Disjunction
deriving DecidableEq, Repr

/-- Literal expressions (ast/src/literal.rs); the f64 payload is ℚ here. -/
inductive Literal
| String (s : String)
| Number (n : ℚ)
| Boolean (b : Bool)
| Nil
deriving DecidableEq, Repr

/-- Expressions. Variants are the ones constructed by the parser and matched
by the runtime (the checked-in ast/src/expression.rs lags behind both and
lacks Assignment and FunctionInvokation). -/
inductive Expression
| Binary (left : Expression) (operator : Operator) (right : Expression)
| Unary (operator : Operator) (right : Expression)
| Literal (lit : Literal)
| Grouping (expr : Expression)
| Conditional (condition : Expression) (thenBranch : Expression) (alternative : Expression)
| Identifier (name : String)
| Assignment (identifier : String) (expression : Expression)
| FunctionInvokation (callee : Expression) (arguments : List Expression)
deriving Repr

/-- Statements. Variants are the ones matched by the runtime
(runtime/src/lib.rs); the checked-in ast/src/statement.rs lacks Return,
which the runtime handles but the parser never produces. -/
inductive Statement
| Print (e : Expression)
| Expression (e : Expression)
| VariableDeclaration (identifier : String) (expression : Expression)
| FunctionDeclaration (identifier : String) (parameters : List String) (execute : Statement)
| Block (statements : List Statement)
| Conditional (condition : Expression) (thenBranch : Statement) (alternative : Option Statement)
| While (condition : Expression) (block : Statement)
| Break
| Continue
| Return (expression : Expression)
deriving Repr

/-- TryFrom a Token for Operator (ast/src/operator.rs): none models Err. -/
def tokToOp (t : Token) : Option Operator :=
  match t.token_type with
  | .EqualEqual => some .Equal
  | .BangEqual => some .NotEqual
  | .And => some .Conjunction
  | .Bang => some .Negation
  | .Equal => some .Assignment
  | .Or => some .Disjunction
  | .Greater => some .Greater
  | .GreaterEqual => some .GreaterOrEqual
  | .Less => some .Less
  | .LessEqual => some .LessOrEqual
  | .Minus => some .Subtraction
  | .Plus => some .Addition
  | .Star => some .Multiplication
  | .Slash => some .Division
  | _ => none

/-- Character for a left brace, kept out of literal position. -/
def lbraceChar : Char := Char.ofNat 123

/-- Character for a right brace, kept out of literal position. -/
def rbraceChar : Char := Char.ofNat 125

/-- Result type of a parsing production: value plus remaining tokens.
The source parser keeps a cursor into the token vector; the embedding
passes the suffix of not-yet-consumed tokens instead. -/
abbrev PRes (α : Type) := Except PErr (α × List Token)

/-- Parser.is_at_end: the next token is EOF (a missing token, which cannot
occur in scanner output, counts as not-at-end exactly as in the source). -/
def isAtEnd (ts : List Token) : Bool :=
  match ts with
  | t :: _ => t.token_type = TokenType.EOF
  | [] => false

/-- Parser.check: the next token has the given type. -/
def check (ts : List Token) (tt : TokenType) : Bool :=
  match ts with
  | t :: _ => t.token_type = tt
  | [] => false

/-- Parser.check_many: the next token has one of the given types. -/
def checkMany (ts : List Token) (tts : List TokenType) : Bool :=
  match ts with
  | t :: _ => tts.any (fun tt => t.token_type = tt)
  | [] => false

/-- Parser.match_token: consume the next token when its type is in the
list, returning it (the source reads it back via previous()). -/
def matchTok (ts : List Token) (tts : List TokenType) : Option (Token × List Token) :=
  match ts with
  | t :: rest => if tts.any (fun tt => t.token_type = tt) then some (t, rest) else none
  | [] => none

end Lox

namespace Lox

/-- Parser.break_stmt. -/
def breakStmtP (ts : List Token) : Except PErr (Statement × List Token) :=
  match matchTok ts [.Semicolon] with
  | none => .error (.kind (.TokenExpected ';'))
  | some (_, ts1) => .ok (.Break, ts1)

/-- Parser.continue_stmt. -/
def continueStmtP (ts : List Token) : Except PErr (Statement × List Token) :=
  match matchTok ts [.Semicolon] with
  | none => .error (.kind (.TokenExpected ';'))
  | some (_, ts1) => .ok (.Continue, ts1)

mutual

/-- Parser.program: collect declarations until EOF. -/
def programP : Nat → List Token → Except PErr (List Statement × List Token)
| 0, _ => .error .outOfFuel
| fuel+1, ts =>
  if isAtEnd ts then .ok ([], ts)
  else do
    let (s, ts1) ← declarationP fuel ts
    let (rest, ts2) ← programP fuel ts1
    .ok (s :: rest, ts2)

/-- Parser.declaration. -/
def declarationP : Nat → List Token → Except PErr (Statement × List Token)
| 0, _ => .error .outOfFuel
| fuel+1, ts =>
  match matchTok ts [.Var] with
  | some (_, ts1) => varDeclP fuel ts1
  | none =>
    match matchTok ts [.Fun] with
    | some (_, ts1) => funDeclP fuel ts1
    | none => statementP fuel ts

/-- Parser.fun_decl (the fun keyword is already consumed). -/
def funDeclP : Nat → List Token → Except PErr (Statement × List Token)
| 0, _ => .error .outOfFuel
| fuel+1, ts =>
  match matchTok ts [.Identifier] with
  | none => .error (.kind .IdentifierExpected)
  | some (idTok, ts1) =>
    match matchTok ts1 [.LeftParen] with
    | none => .error (.kind (.TokenExpected '('))
    | some (_, ts2) => do
      let (params, ts3) ← parametersP fuel ts2
      match matchTok ts3 [.LeftBrace] with
      | none => .error (.kind (.TokenExpected lbraceChar))
      | some (_, ts4) => do
        let (body, ts5) ← blockP fuel ts4
        .ok (.FunctionDeclaration idTok.lexeme params body, ts5)

/-- Parser.parameters: identifiers up to the closing paren, with no
separator token between them. -/
def parametersP : Nat → List Token → Except PErr (List String × List Token)
| 0, _ => .error .outOfFuel
| fuel+1, ts =>
  if !(isAtEnd ts) && !(check ts .RightParen) then
    match matchTok ts [.Identifier] with
    | none => .error (.kind .IdentifierExpected)
    | some (t, ts1) => do
      let (rest, ts2) ← parametersP fuel ts1
      .ok (t.lexeme :: rest, ts2)
  else
    match matchTok ts [.RightParen] with
    | none => .error (.kind (.TokenExpected ')'))
    | some (_, ts1) => .ok ([], ts1)

/-- Parser.var_decl (the var keyword is already consumed). -/
def varDeclP : Nat → List Token → Except PErr (Statement × List Token)
| 0, _ => .error .outOfFuel
| fuel+1, ts =>
  match matchTok ts [.Identifier] with
  | none => .error (.kind .IdentifierExpected)
  | some (idTok, ts1) =>
    match matchTok ts1 [.Equal] with
    | none => .error (.kind (.TokenExpected '='))
    | some (_, ts2) => do
      let (e, ts3) ← expressionP fuel ts2
      match matchTok ts3 [.Semicolon] with
      | none => .error (.kind (.TokenExpected ';'))
      | some (_, ts4) => .ok (.VariableDeclaration idTok.lexeme e, ts4)

/-- Parser.statement: print, block, if, while, break, continue, else an
expression statement. There is no branch for the return keyword. -/
def statementP : Nat → List Token → Except PErr (Statement × List Token)
| 0, _ => .error .outOfFuel
| fuel+1, ts =>
  match matchTok ts [.Print] with
  | some (_, ts1) => printStmtP fuel ts1
  | none =>
  match matchTok ts [.LeftBrace] with
  | some (_, ts1) => blockP fuel ts1
  | none =>
  match matchTok ts [.If] with
  | some (_, ts1) => ifStmtP fuel ts1
  | none =>
  match matchTok ts [.While] with
  | some (_, ts1) => whileStmtP fuel ts1
  | none =>
  match matchTok ts [.Break] with
  | some (_, ts1) => breakStmtP ts1
  | none =>
  match matchTok ts [.Continue] with
  | some (_, ts1) => continueStmtP ts1
  | none => exprStmtP fuel ts

/-- Parser.while_stmt. -/
def whileStmtP : Nat → List Token → Except PErr (Statement × List Token)
| 0, _ => .error .outOfFuel
| fuel+1, ts => do
  let (cond, ts1) ← expressionP fuel ts
  match matchTok ts1 [.LeftBrace] with
  | none => .error (.kind (.TokenExpected lbraceChar))
  | some (_, ts2) => do
    let (body, ts3) ← blockP fuel ts2
    .ok (.While cond body, ts3)

/-- Parser.if_stmt. -/
def ifStmtP : Nat → List Token → Except PErr (Statement × List Token)
| 0, _ => .error .outOfFuel
| fuel+1, ts => do
  let (cond, ts1) ← expressionP fuel ts
  match matchTok ts1 [.LeftBrace] with
  | none => .error (.kind (.TokenExpected lbraceChar))
  | some (_, ts2) => do
    let (thenB, ts3) ← blockP fuel ts2
    match matchTok ts3 [.Else] with
    | none => .ok (.Conditional cond thenB none, ts3)
    | some (_, ts4) =>
      if !(check ts4 .If) then
        match matchTok ts4 [.LeftBrace] with
        | none => .error (.kind (.TokenExpected lbraceChar))
        | some (_, ts5) => do
          let (alt, ts6) ← blockP fuel ts5
          .ok (.Conditional cond thenB (some alt), ts6)
      else do
        let (alt, ts5) ← statementP fuel ts4
        .ok (.Conditional cond thenB (some alt), ts5)

/-- Parser.block, after the opening brace: the collected statements. -/
def blockItemsP : Nat → List Token → Except PErr (List Statement × List Token)
| 0, _ => .error .outOfFuel
| fuel+1, ts =>
  if !(isAtEnd ts) && !(check ts .RightBrace) then do
    let (s, ts1) ← declarationP fuel ts
    let (rest, ts2) ← blockItemsP fuel ts1
    .ok (s :: rest, ts2)
  else
    match matchTok ts [.RightBrace] with
    | none => .error (.kind (.TokenExpected rbraceChar))
    | some (_, ts1) => .ok ([], ts1)

/-- Parser.block as a statement. -/
def blockP : Nat → List Token → Except PErr (Statement × List Token)
| 0, _ => .error .outOfFuel
| fuel+1, ts => do
  let (ss, ts1) ← blockItemsP fuel ts
  .ok (.Block ss, ts1)

/-- Parser.expr_stmt. -/
def exprStmtP : Nat → List Token → Except PErr (Statement × List Token)
| 0, _ => .error .outOfFuel
| fuel+1, ts => do
  let (e, ts1) ← expressionP fuel ts
  match matchTok ts1 [.Semicolon] with
  | none => .error (.kind (.TokenExpected ';'))
  | some (_, ts2) => .ok (.Expression e, ts2)

/-- Parser.print_stmt. -/
def printStmtP : Nat → List Token → Except PErr (Statement × List Token)
| 0, _ => .error .outOfFuel
| fuel+1, ts => do
  let (e, ts1) ← expressionP fuel ts
  match matchTok ts1 [.Semicolon] with
  | none => .error (.kind (.TokenExpected ';'))
  | some (_, ts2) => .ok (.Print e, ts2)

/-- Parser.expression. -/
def expressionP : Nat → List Token → Except PErr (Expression × List Token)
| 0, _ => .error .outOfFuel
| fuel+1, ts => assignmentP fuel ts

/-- Parser.assignment. -/
def assignmentP : Nat → List Token → Except PErr (Expression × List Token)
| 0, _ => .error .outOfFuel
| fuel+1, ts => do
  let (e, ts1) ← ternaryP fuel ts
  match matchTok ts1 [.Equal] with
  | none => .ok (e, ts1)
  | some (_, ts2) =>
    match e with
    | .Identifier id => do
      let (rhs, ts3) ← expressionP fuel ts2
      .ok (.Assignment id rhs, ts3)
    | _ => .error (.kind .IdentifierExpected)

/-- Parser.ternary. -/
def ternaryP : Nat → List Token → Except PErr (Expression × List Token)
| 0, _ => .error .outOfFuel
| fuel+1, ts => do
  let (e, ts1) ← logicOrP fuel ts
  match matchTok ts1 [.Question] with
  | none => .ok (e, ts1)
  | some (_, ts2) => do
    let (thenE, ts3) ← logicOrP fuel ts2
    match matchTok ts3 [.Colon] with
    | none => .error (.kind (.TokenExpected ':'))
    | some (_, ts4) => do
      let (alt, ts5) ← logicOrP fuel ts4
      .ok (.Conditional e thenE alt, ts5)

/-- Parser.logic_or, entry. -/
def logicOrP : Nat → List Token → Except PErr (Expression × List Token)
| 0, _ => .error .outOfFuel
| fuel+1, ts => do
  let (e, ts1) ← logicAndP fuel ts
  orRestP fuel e ts1

/-- Parser.logic_or, left-associative folding loop. -/
def orRestP : Nat → Expression → List Token → Except PErr (Expression × List Token)
| 0, _, _ => .error .outOfFuel
| fuel+1, e, ts =>
  match matchTok ts [.Or] with
  | none => .ok (e, ts)
  | some (t, ts1) =>
    match tokToOp t with
    | none => .error .bug
    | some op => do
      let (r, ts2) ← logicAndP fuel ts1
      orRestP fuel (.Binary e op r) ts2

/-- Parser.logic_and, entry. -/
def logicAndP : Nat → List Token → Except PErr (Expression × List Token)
| 0, _ => .error .outOfFuel
| fuel+1, ts => do
  let (e, ts1) ← equalityP fuel ts
  andRestP fuel e ts1

/-- Parser.logic_and, left-associative folding loop. -/
def andRestP : Nat → Expression → List Token → Except PErr (Expression × List Token)
| 0, _, _ => .error .outOfFuel
| fuel+1, e, ts =>
  match matchTok ts [.And] with
  | none => .ok (e, ts)
  | some (t, ts1) =>
    match tokToOp t with
    | none => .error .bug
    | some op => do
      let (r, ts2) ← equalityP fuel ts1
      andRestP fuel (.Binary e op r) ts2

/-- Parser.equality: leading-operator check then left fold. -/
def equalityP : Nat → List Token → Except PErr (Expression × List Token)
| 0, _ => .error .outOfFuel
| fuel+1, ts =>
  if checkMany ts [.BangEqual, .EqualEqual] then .error (.kind .MissingLeftHandOperand)
  else do
    let (e, ts1) ← comparisonP fuel ts
    eqRestP fuel e ts1

/-- Parser.equality, folding loop. -/
def eqRestP : Nat → Expression → List Token → Except PErr (Expression × List Token)
| 0, _, _ => .error .outOfFuel
| fuel+1, e, ts =>
  match matchTok ts [.BangEqual, .EqualEqual] with
  | none => .ok (e, ts)
  | some (t, ts1) =>
    match tokToOp t with
    | none => .error .bug
    | some op => do
      let (r, ts2) ← comparisonP fuel ts1
      eqRestP fuel (.Binary e op r) ts2

/-- Parser.comparison: leading-operator check then left fold. -/
def comparisonP : Nat → List Token → Except PErr (Expression × List Token)
| 0, _ => .error .outOfFuel
| fuel+1, ts =>
  if checkMany ts [.Greater, .GreaterEqual, .Less, .LessEqual] then
    .error (.kind .MissingLeftHandOperand)
  else do
    let (e, ts1) ← termP fuel ts
    cmpRestP fuel e ts1

/-- Parser.comparison, folding loop. -/
def cmpRestP : Nat → Expression → List Token → Except PErr (Expression × List Token)
| 0, _, _ => .error .outOfFuel
| fuel+1, e, ts =>
  match matchTok ts [.Greater, .GreaterEqual, .Less, .LessEqual] with
  | none => .ok (e, ts)
  | some (t, ts1) =>
    match tokToOp t with
    | none => .error .bug
    | some op => do
      let (r, ts2) ← termP fuel ts1
      cmpRestP fuel (.Binary e op r) ts2

/-- Parser.term: leading-operator check then left fold. -/
def termP : Nat → List Token → Except PErr (Expression × List Token)
| 0, _ => .error .outOfFuel
| fuel+1, ts =>
  if checkMany ts [.Plus, .Minus] then .error (.kind .MissingLeftHandOperand)
  else do
    let (e, ts1) ← factorP fuel ts
    termRestP fuel e ts1

/-- Parser.term, folding loop. -/
def termRestP : Nat → Expression → List Token → Except PErr (Expression × List Token)
| 0, _, _ => .error .outOfFuel
| fuel+1, e, ts =>
  match matchTok ts [.Plus, .Minus] with
  | none => .ok (e, ts)
  | some (t, ts1) =>
    match tokToOp t with
    | none => .error .bug
    | some op => do
      let (r, ts2) ← factorP fuel ts1
      termRestP fuel (.Binary e op r) ts2

/-- Parser.factor: leading-operator check then left fold. -/
def factorP : Nat → List Token → Except PErr (Expression × List Token)
| 0, _ => .error .outOfFuel
| fuel+1, ts =>
  if checkMany ts [.Slash, .Star] then .error (.kind .MissingLeftHandOperand)
  else do
    let (e, ts1) ← unaryP fuel ts
    factorRestP fuel e ts1

/-- Parser.factor, folding loop. -/
def factorRestP : Nat → Expression → List Token → Except PErr (Expression × List Token)
| 0, _, _ => .error .outOfFuel
| fuel+1, e, ts =>
  match matchTok ts [.Slash, .Star] with
  | none => .ok (e, ts)
  | some (t, ts1) =>
    match tokToOp t with
    | none => .error .bug
    | some op => do
      let (r, ts2) ← unaryP fuel ts1
      factorRestP fuel (.Binary e op r) ts2

/-- Parser.unary: stacking prefix operators, else a call. -/
def unaryP : Nat → List Token → Except PErr (Expression × List Token)
| 0, _ => .error .outOfFuel
| fuel+1, ts =>
  match matchTok ts [.Bang, .Minus] with
  | some (t, ts1) =>
    match tokToOp t with
    | none => .error .bug
    | some op => do
      let (r, ts2) ← unaryP fuel ts1
      .ok (.Unary op r, ts2)
  | none => callP fuel ts

/-- Parser.call, entry. -/
def callP : Nat → List Token → Except PErr (Expression × List Token)
| 0, _ => .error .outOfFuel
| fuel+1, ts => do
  let (e, ts1) ← primaryP fuel ts
  callRestP fuel e ts1

/-- Parser.call, postfix invocation loop. -/
def callRestP : Nat → Expression → List Token → Except PErr (Expression × List Token)
| 0, _, _ => .error .outOfFuel
| fuel+1, e, ts =>
  match matchTok ts [.LeftParen] with
  | none => .ok (e, ts)
  | some (_, ts1) => do
    let (args, ts2) ← argumentsP fuel ts1
    match matchTok ts2 [.RightParen] with
    | none => .error (.kind (.TokenExpected ')'))
    | some (_, ts3) => callRestP fuel (.FunctionInvokation e args) ts3

/-- Parser.arguments: expressions up to the closing paren, with no
separator token between them. -/
def argumentsP : Nat → List Token → Except PErr (List Expression × List Token)
| 0, _ => .error .outOfFuel
| fuel+1, ts =>
  if !(isAtEnd ts) && !(check ts .RightParen) then do
    let (e, ts1) ← expressionP fuel ts
    let (rest, ts2) ← argumentsP fuel ts1
    .ok (e :: rest, ts2)
  else .ok ([], ts)

/-- Parser.primary. -/
def primaryP : Nat → List Token → Except PErr (Expression × List Token)
| 0, _ => .error .outOfFuel
| fuel+1, ts =>
  match matchTok ts [.False] with
  | some (_, ts1) => .ok (.Literal (.Boolean false), ts1)
  | none =>
  match matchTok ts [.True] with
  | some (_, ts1) => .ok (.Literal (.Boolean true), ts1)
  | none =>
  match matchTok ts [.Nil] with
  | some (_, ts1) => .ok (.Literal .Nil, ts1)
  | none =>
  match matchTok ts [.Number] with
  | some (t, ts1) =>
    match t.literal with
    | some (.Number q) => .ok (.Literal (.Number q), ts1)
    | _ => .error .bug
  | none =>
  match matchTok ts [.String] with
  | some (t, ts1) =>
    match t.literal with
    | some (.String s) => .ok (.Literal (.String s), ts1)
    | _ => .error .bug
  | none =>
  match matchTok ts [.Identifier] with
  | some (t, ts1) => .ok (.Identifier t.lexeme, ts1)
  | none =>
  match matchTok ts [.LeftParen] with
  | some (_, ts1) => do
    let (e, ts2) ← expressionP fuel ts1
    match matchTok ts2 [.RightParen] with
    | none => .error (.kind (.TokenExpected ')'))
    | some (_, ts3) => .ok (.Grouping e, ts3)
  | none => .error (.kind .ExpressionExprected)

end

/-- Parser.run: parse a whole token stream into a program. -/
def parseRun (fuel : Nat) (tokens : List Token) : Except PErr (List Statement × List Token) :=
  programP fuel tokens

end Lox

namespace Lox

/-- Runtime error kinds (runtime/src/error/mod.rs). ReturnNotWithinFunction
is the kind Runtime::run names for a FunctionReturn signal at the top level
(runtime/src/lib.rs line 33); the checked-in enum lags behind and lacks it. -/
inductive RuntimeErrorKind
| ExpectedNumberOperand
| ZeroDivision
| VariableAlreadyDefined (name : String)
| VariableNotDefined (name : String)
| ContinueNotWithinLoop
| BreakNotWithinLoop
| ExpressionNotCallable
| InvalidArgumentCount (got : Nat) (expected : Nat)
| ReturnNotWithinFunction
deriving DecidableEq, Repr

/-- Result channel of the embedded runtime: a structured runtime error,
fuel exhaustion of the embedding, or a panic of the source (unreachable!
or unwrap of None). -/
inductive RErr
| runtime (kind : RuntimeErrorKind)
| outOfFuel
| bug
deriving DecidableEq, Repr

mutual

/-- Runtime values (runtime/src/runtime/value.rs). The Callable variant is
the one Runtime::fun_stmt constructs and Runtime::function_invokation
matches (the checked-in value.rs lags behind and lacks it); i64 is Int and
f64 is ℚ here. -/
inductive RuntimeValue
| Integer (v : Int)
| Float (v : ℚ)
| String (s : String)
| Nil
| Boolean (b : Bool)
| Callable (parameters : List String) (execute : List Statement) (closure : Environment)

/-- Environment (runtime/src/runtime/environment.rs): a name-to-value map
plus an optional enclosing scope. The Rc-shared chain is embedded by value. -/
inductive Environment
| mk (values : List (String × RuntimeValue)) (enclosing : Option Environment)

end

/-- Signals for non-local control flow (runtime/src/runtime/signal.rs). -/
inductive RuntimeSignal
| LoopBreak
| LoopContinue
| FunctionReturn (value : RuntimeValue)

/-- Bindings of an Environment. -/
def Environment.values : Environment → List (String × RuntimeValue)
| .mk v _ => v

/-- Enclosing scope of an Environment. -/
def Environment.enclosing : Environment → Option Environment
| .mk _ e => e

/-- HashMap.contains_key on the binding list. -/
def hasKey (vs : List (String × RuntimeValue)) (identifier : String) : Bool :=
  vs.any (fun p => p.1 == identifier)

/-- HashMap.insert on the binding list: replace the existing binding for
the name or append a fresh one. -/
def listInsert (vs : List (String × RuntimeValue)) (identifier : String)
    (value : RuntimeValue) : List (String × RuntimeValue) :=
  match vs with
  | [] => [(identifier, value)]
  | p :: rest =>
    if p.1 == identifier then (identifier, value) :: rest
    else p :: listInsert rest identifier value

/-- HashMap.get on the binding list. -/
def lookupVal (vs : List (String × RuntimeValue)) (identifier : String) :
    Option RuntimeValue :=
  (vs.find? (fun p => p.1 == identifier)).map (fun p => p.2)

/-- Environment.get: nearest binding walking the chain outward. -/
def Environment.get : Environment → String → Option RuntimeValue
| .mk values enclosing, identifier =>
  let value := lookupVal values identifier
  match value, enclosing with
  | none, some parent => parent.get identifier
  | v, _ => v

/-- Environment.define: error when the name is bound in this instance
(ancestors are not consulted), otherwise insert here. -/
def Environment.define : Environment → String → RuntimeValue → Except RErr Environment
| .mk values enclosing, identifier, value =>
  if hasKey values identifier then
    .error (.runtime (.VariableAlreadyDefined identifier))
  else
    .ok (.mk (listInsert values identifier value) enclosing)

/-- Environment.assign: overwrite the nearest scope already holding the
name, walking outward; error when no scope in the chain holds it. -/
def Environment.assign : Environment → String → RuntimeValue → Except RErr Environment
| .mk values enclosing, identifier, value =>
  if !(hasKey values identifier) then
    match enclosing with
    | some parent =>
      (parent.assign identifier value).map (fun p => .mk values (some p))
    | none => .error (.runtime (.VariableNotDefined identifier))
  else
    .ok (.mk (listInsert values identifier value) enclosing)

/-- Whether some scope of the chain binds the name. -/
def chainHas : Environment → String → Bool
| .mk values none, identifier => hasKey values identifier
| .mk values (some parent), identifier =>
  hasKey values identifier || chainHas parent identifier

/-- Binding frames of the chain, innermost first. -/
def frames : Environment → List (List (String × RuntimeValue))
| .mk values none => [values]
| .mk values (some parent) => values :: frames parent

/-- Overwrite the name in the first frame that holds it, leaving every
other frame untouched. -/
def updateFirst (fs : List (List (String × RuntimeValue))) (identifier : String)
    (value : RuntimeValue) : List (List (String × RuntimeValue)) :=
  match fs with
  | [] => []
  | f :: rest =>
    if hasKey f identifier then listInsert f identifier value :: rest
    else f :: updateFirst rest identifier value

end Lox

namespace Lox

/-- Not for &RuntimeValue (value.rs): the source tries the conversions in
order i64, f64, bool, &str, unit; note that it maps a String to
Boolean(true) and Nil to Boolean(false), not to their negated truthiness. -/
def rvNot : RuntimeValue → Option RuntimeValue
| .Integer v => some (.Boolean (!(v != 0)))
| .Float v => some (.Boolean (!(v != 0)))
| .Boolean b => some (.Boolean (!b))
| .String _ => some (.Boolean true)
| .Nil => some (.Boolean false)
| .Callable _ _ _ => none

/-- Neg for &RuntimeValue (value.rs). -/
def rvNeg : RuntimeValue → Option RuntimeValue
| .Integer v => some (.Integer (-v))
| .Float v => some (.Float (-v))
| _ => none

/-- Display form of a float operand when concatenated to a string; the
source formats an f64 with Rust Display, approximated here on ℚ. -/
def ratDisplay (q : ℚ) : String :=
  if q.den == 1 then toString q.num
  else toString q.num ++ "/" ++ toString q.den

/-- Add for &RuntimeValue (value.rs): numeric promotion, and string
concatenation when the left operand is a String. -/
def rvAdd : RuntimeValue → RuntimeValue → Option RuntimeValue
| .Integer a, .Integer b => some (.Integer (a + b))
| .Integer a, .Float q => some (.Float ((a : ℚ) + q))
| .Integer _, _ => none
| .Float p, .Integer b => some (.Float (p + (b : ℚ)))
| .Float p, .Float q => some (.Float (p + q))
| .Float _, _ => none
| .String s, .String t => some (.String (s ++ t))
| .String s, .Integer b => some (.String (s ++ toString b))
| .String s, .Float q => some (.String (s ++ ratDisplay q))
| .String _, _ => none
| _, _ => none

/-- Sub for &RuntimeValue (value.rs). -/
def rvSub : RuntimeValue → RuntimeValue → Option RuntimeValue
| .Integer a, .Integer b => some (.Integer (a - b))
| .Integer a, .Float q => some (.Float ((a : ℚ) - q))
| .Float p, .Integer b => some (.Float (p - (b : ℚ)))
| .Float p, .Float q => some (.Float (p - q))
| _, _ => none

/-- Mul for &RuntimeValue (value.rs). -/
def rvMul : RuntimeValue → RuntimeValue → Option RuntimeValue
| .Integer a, .Integer b => some (.Integer (a * b))
| .Integer a, .Float q => some (.Float ((a : ℚ) * q))
| .Float p, .Integer b => some (.Float (p * (b : ℚ)))
| .Float p, .Float q => some (.Float (p * q))
| _, _ => none

/-- Round-to-nearest integer with ties to even, on the fractional part
against the floor. -/
def rne (s : ℚ) : ℤ :=
  if s - ⌊s⌋ < 1/2 then ⌊s⌋
  else if 1/2 < s - ⌊s⌋ then ⌊s⌋ + 1
  else if 2 ∣ ⌊s⌋ then ⌊s⌋ else ⌊s⌋ + 1

/-- IEEE-754 double rounding: the nearest value with a 53-bit significand,
ties to even. The exponent is unbounded (no overflow, no subnormals), so
this is exact on the normal range — which contains every i64 cast and
every Integer-by-Integer quotient the division path can produce. -/
def roundF64 (q : ℚ) : ℚ :=
  if q = 0 then 0
  else
    let e : ℤ := Int.log 2 |q|
    let m : ℤ := rne (|q| * (2:ℚ)^(52 - e))
    (if q < 0 then -(m:ℚ) else (m:ℚ)) * (2:ℚ)^(e - 52)

/-- Div for &RuntimeValue (value.rs): Integer by Integer is computed as
lhs as f64 / rhs as f64 — both casts and the quotient rounded to the
f64 grid by roundF64 — and demoted back to Integer when the result has no
fractional part (fract() == 0.0, i.e. an integer-valued float). The caller
checks for a zero divisor first (the source would produce an infinite
float on a zero divisor where this model returns Integer 0; that branch is
unreachable through Runtime.binary). Float-involving arms divide the
already-idealized ℚ float payloads exactly. -/
def rvDiv : RuntimeValue → RuntimeValue → Option RuntimeValue
| .Integer a, .Integer b =>
  let result : ℚ := roundF64 (roundF64 ((a : ℚ)) / roundF64 ((b : ℚ)))
  some (if result.den == 1 then .Integer result.num else .Float result)
| .Integer a, .Float q => some (.Float ((a : ℚ) / q))
| .Float p, .Integer b => some (.Float (p / (b : ℚ)))
| .Float p, .Float q => some (.Float (p / q))
| _, _ => none

/-- PartialEq for RuntimeValue (value.rs): numeric equality with promotion,
String with String, Boolean with Boolean; everything else false — in
particular Nil is equal to nothing, not even to Nil. -/
def rvEq : RuntimeValue → RuntimeValue → Bool
| .Integer a, .Integer b => a == b
| .Integer a, .Float q => (a : ℚ) == q
| .Integer _, _ => false
| .Float p, .Integer b => p == (b : ℚ)
| .Float p, .Float q => p == q
| .Float _, _ => false
| .String s, .String t => s == t
| .String _, _ => false
| .Boolean a, .Boolean b => a == b
| .Boolean _, _ => false
| _, _ => false

/-- PartialEq::ne, the Rust default: negation of eq. -/
def rvNe (a b : RuntimeValue) : Bool := !(rvEq a b)

/-- PartialOrd for RuntimeValue (value.rs): ordering only between numeric
values, with promotion; every other pair is unordered. -/
def rvCmp : RuntimeValue → RuntimeValue → Option Ordering
| .Integer a, .Integer b => some (compare a b)
| .Integer a, .Float q => some (compare (a : ℚ) q)
| .Float p, .Integer b => some (compare p (b : ℚ))
| .Float p, .Float q => some (compare p q)
| _, _ => none

/-- PartialOrd::gt, the Rust default over partial_cmp. -/
def rvGt (a b : RuntimeValue) : Bool := rvCmp a b == some .gt

/-- PartialOrd::ge, the Rust default over partial_cmp. -/
def rvGe (a b : RuntimeValue) : Bool :=
  match rvCmp a b with
  | some .gt => true
  | some .eq => true
  | _ => false

/-- PartialOrd::lt, the Rust default over partial_cmp. -/
def rvLt (a b : RuntimeValue) : Bool := rvCmp a b == some .lt

/-- PartialOrd::le, the Rust default over partial_cmp. -/
def rvLe (a b : RuntimeValue) : Bool :=
  match rvCmp a b with
  | some .lt => true
  | some .eq => true
  | _ => false

/-- Modelled from the spec: the truthiness coercion used by the runtime as
an infallible conversion of a value reference into bool (lib.rs lines 104,
334 and 337); its impl block is missing from the checked-in value.rs. The
spec table (section 4.2) reads Boolean to itself, Integer to value != 0,
Float to value != 0.0, String to true, Nil to false; it does not cover
Callable, mapped to true here. -/
def truthy : RuntimeValue → Bool
| .Boolean b => b
| .Integer v => v != 0
| .Float v => v != 0
| .String _ => true
| .Nil => false
| .Callable _ _ _ => true

/-- Runtime.literal: a numeric literal with zero fractional part becomes
Integer, otherwise Float (lib.rs lines 266 to 279). -/
def literalValue : Literal → RuntimeValue
| .Boolean b => .Boolean b
| .String s => .String s
| .Number q => if q.den == 1 then .Integer q.num else .Float q
| .Nil => .Nil

/-- Numeric reading of a value, for stating the comparison claims. -/
def numericQ : RuntimeValue → Option ℚ
| .Integer v => some (v : ℚ)
| .Float q => some q
| _ => none

end Lox

namespace Lox

/-- Lift an operator result, turning the None of the value operators into
the generic operand-type error (the ok_or in Runtime::unary and binary). -/
def liftOperand (o : Option RuntimeValue) (env : Environment) :
    Except RErr (RuntimeValue × Environment) :=
  match o with
  | some v => .ok (v, env)
  | none => .error (.runtime .ExpectedNumberOperand)

mutual

/-- Runtime.evaluate (runtime/src/lib.rs), with the expression helpers
binary, unary, literal, grouping, conditional and function_invokation
inlined at their match arms. The environment is threaded by value. -/
def evaluate : Nat → Environment → Expression → Except RErr (RuntimeValue × Environment)
| 0, _, _ => .error .outOfFuel
| fuel+1, env, .Binary l op r => do
  let (lv, env1) ← evaluate fuel env l
  match op with
  | .Conjunction =>
    if truthy lv then do
      let (rv, env2) ← evaluate fuel env1 r
      .ok (.Boolean (truthy rv), env2)
    else .ok (.Boolean false, env1)
  | .Disjunction =>
    if truthy lv then .ok (.Boolean true, env1)
    else do
      let (rv, env2) ← evaluate fuel env1 r
      .ok (.Boolean (truthy rv), env2)
  | _ => do
    let (rv, env2) ← evaluate fuel env1 r
    match op with
    | .Addition => liftOperand (rvAdd lv rv) env2
    | .Subtraction => liftOperand (rvSub lv rv) env2
    | .Multiplication => liftOperand (rvMul lv rv) env2
    | .Division =>
      if rvEq rv (.Integer 0) || rvEq rv (.Float 0) then
        .error (.runtime .ZeroDivision)
      else liftOperand (rvDiv lv rv) env2
    | .Greater => .ok (.Boolean (rvGt lv rv), env2)
    | .GreaterOrEqual => .ok (.Boolean (rvGe lv rv), env2)
    | .Less => .ok (.Boolean (rvLt lv rv), env2)
    | .LessOrEqual => .ok (.Boolean (rvLe lv rv), env2)
    | .Equal => .ok (.Boolean (rvEq lv rv), env2)
    | .NotEqual => .ok (.Boolean (rvNe lv rv), env2)
    | _ => .error .bug
| fuel+1, env, .Unary op r => do
  let (v, env1) ← evaluate fuel env r
  match op with
  | .Subtraction => liftOperand (rvNeg v) env1
  | .Addition => .ok (v, env1)
  | .Negation => liftOperand (rvNot v) env1
  | _ => .error (.runtime .ExpectedNumberOperand)
| _+1, env, .Literal lit => .ok (literalValue lit, env)
| fuel+1, env, .Grouping e => evaluate fuel env e
| fuel+1, env, .Conditional c t a => do
  let (v, env1) ← evaluate fuel env c
  if rvEq v (.Boolean true) then evaluate fuel env1 t
  else evaluate fuel env1 a
| _+1, env, .Identifier id =>
  match env.get id with
  | some v => .ok (v, env)
  | none => .error (.runtime (.VariableNotDefined id))
| fuel+1, env, .Assignment id e => do
  let (v, env1) ← evaluate fuel env e
  match env1.assign id v with
  | .ok env2 => .ok (.Nil, env2)
  | .error err => .error err
| fuel+1, env, .FunctionInvokation callee args => do
  let (cv, env1) ← evaluate fuel env callee
  match cv with
  | .Callable params execStmts closure =>
    if args.length != params.length then
      .error (.runtime (.InvalidArgumentCount args.length params.length))
    else do
      let (callerEnv, callEnv) ←
        bindArgs fuel env1 (Environment.mk [] (some closure)) params args
      match execBlock fuel callEnv execStmts with
      | .error err => .error err
      | .ok (sig, _) =>
        match sig with
        | some (.FunctionReturn v) => .ok (v, callerEnv)
        | some .LoopBreak => .error (.runtime .BreakNotWithinLoop)
        | some .LoopContinue => .error (.runtime .ContinueNotWithinLoop)
        | none => .ok (.Nil, callerEnv)
  | _ => .error (.runtime .ExpressionNotCallable)

/-- Runtime.statement (runtime/src/lib.rs), with the statement helpers
inlined at their match arms. Print output is not modelled. -/
def statementExec : Nat → Environment → Statement →
    Except RErr (Option RuntimeSignal × Environment)
| 0, _, _ => .error .outOfFuel
| fuel+1, env, .Expression e => do
  let (_, env1) ← evaluate fuel env e
  .ok (none, env1)
| fuel+1, env, .Print e => do
  let (_, env1) ← evaluate fuel env e
  .ok (none, env1)
| fuel+1, env, .VariableDeclaration id e => do
  let (v, env1) ← evaluate fuel env e
  match env1.define id v with
  | .ok env2 => .ok (none, env2)
  | .error err => .error err
| _+1, env, .FunctionDeclaration id params execute =>
  match execute with
  | .Block stmts =>
    match env.define id (.Callable params stmts env) with
    | .ok env1 => .ok (none, env1)
    | .error err => .error err
  | _ => .error .bug
| fuel+1, env, .Block stmts => execBlock fuel env stmts
| fuel+1, env, .Conditional c t a => do
  let (v, env1) ← evaluate fuel env c
  match rvNot v with
  | none => .error .bug
  | some nv =>
    match nv with
    | .Boolean b =>
      if !b then statementExec fuel env1 t
      else
        match a with
        | some alt => statementExec fuel env1 alt
        | none => .ok (none, env1)
    | _ => .error .bug
| fuel+1, env, .While c body => loopExec fuel env c body
| _+1, env, .Break => .ok (some .LoopBreak, env)
| _+1, env, .Continue => .ok (some .LoopContinue, env)
| fuel+1, env, .Return e => do
  let (v, env1) ← evaluate fuel env e
  .ok (some (.FunctionReturn v), env1)

/-- Runtime._run: execute statements in order, stopping at the first
signal. -/
def runList : Nat → Environment → List Statement →
    Except RErr (Option RuntimeSignal × Environment)
| 0, _, _ => .error .outOfFuel
| _+1, env, [] => .ok (none, env)
| fuel+1, env, s :: rest => do
  let (sig, env1) ← statementExec fuel env s
  match sig with
  | some sg => .ok (some sg, env1)
  | none => runList fuel env1 rest

/-- Runtime.block: run the statements in a fresh scope chained to the
current one, then restore the enclosing scope. The source restores the
saved Rc while mutations through the shared chain persist; by value this
is reading the updated parent back out of the finished child scope. -/
def execBlock : Nat → Environment → List Statement →
    Except RErr (Option RuntimeSignal × Environment)
| 0, _, _ => .error .outOfFuel
| fuel+1, env, stmts =>
  match runList fuel (Environment.mk [] (some env)) stmts with
  | .error e => .error e
  | .ok (sig, envAfter) =>
    match envAfter with
    | .mk _ (some parent) => .ok (sig, parent)
    | .mk _ none => .error .bug

/-- Runtime.loop_stmt: re-evaluate the condition each iteration, swallow
LoopBreak and LoopContinue, let FunctionReturn pass through. -/
def loopExec : Nat → Environment → Expression → Statement →
    Except RErr (Option RuntimeSignal × Environment)
| 0, _, _, _ => .error .outOfFuel
| fuel+1, env, c, body => do
  let (v, env1) ← evaluate fuel env c
  if truthy v then
    match statementExec fuel env1 body with
    | .error e => .error e
    | .ok (none, env2) => loopExec fuel env2 c body
    | .ok (some .LoopBreak, env2) => .ok (none, env2)
    | .ok (some .LoopContinue, env2) => loopExec fuel env2 c body
    | .ok (some (.FunctionReturn rv), env2) => .ok (some (.FunctionReturn rv), env2)
  else .ok (none, env1)

/-- Argument binding loop of Runtime.function_invokation: evaluate each
argument in the caller environment and define it under the matching
parameter name in the fresh call environment. -/
def bindArgs : Nat → Environment → Environment → List String → List Expression →
    Except RErr (Environment × Environment)
| 0, _, _, _, _ => .error .outOfFuel
| _+1, callerEnv, callEnv, [], [] => .ok (callerEnv, callEnv)
| fuel+1, callerEnv, callEnv, name :: ps, a :: rest => do
  let (v, callerEnv1) ← evaluate fuel callerEnv a
  match callEnv.define name v with
  | .error e => .error e
  | .ok callEnv1 => bindArgs fuel callerEnv1 callEnv1 ps rest
| _+1, _, _, _, _ => .error .bug

end

/-- Runtime.run: execute a program in a fresh global environment; a signal
surfacing at the program boundary becomes the corresponding
not-within-loop/function error. -/
def run (fuel : Nat) (program : List Statement) : Except RErr Unit :=
  match runList fuel (Environment.mk [] none) program with
  | .error e => .error e
  | .ok (some sig, _) =>
    .error (.runtime (match sig with
      | .LoopBreak => .BreakNotWithinLoop
      | .LoopContinue => .ContinueNotWithinLoop
      | .FunctionReturn _ => .ReturnNotWithinFunction))
  | .ok (none, _) => .ok ()

end Lox

namespace Lox

/-- Equality table as the spec states it (section 4.2 comparisons):
numeric equality with promotion, String with String, Boolean with Boolean,
false on every cross-type or unordered pair. Stated from the spec words,
to be compared with rvEq from the source. -/
def rvEqSpec (v w : RuntimeValue) : Bool :=
  match numericQ v, numericQ w with
  | some p, some q => p == q
  | _, _ =>
    match v, w with
    | .String s, .String t => s == t
    | .Boolean a, .Boolean b => a == b
    | _, _ => false

/-- Fresh global environment, as Runtime.new creates it. -/
def env0 : Environment := .mk [] none

/-- Number literal expression. -/
def lit (q : ℚ) : Expression := .Literal (.Number q)

/-- String literal expression. -/
def slit (s : String) : Expression := .Literal (.String s)

/-- Boolean literal expression. -/
def blit (b : Bool) : Expression := .Literal (.Boolean b)

/-- Keyword or punctuation token. -/
def tk (tt : TokenType) (lx : String) : Token := ⟨tt, lx, 1, none⟩

/-- Number token carrying its literal. -/
def numTk (q : ℚ) : Token := ⟨.Number, "num", 1, some (.Number q)⟩

/-- Identifier token. -/
def identTk (s : String) : Token := ⟨.Identifier, s, 1, none⟩

/-- Comma token. -/
def commaTk : Token := ⟨.Comma, ",", 1, none⟩

/-- Terminal EOF token. -/
def eofTk : Token := ⟨.EOF, "", 1, none⟩

/-- Token stream of the statement return 1 ; as the scanner emits it. -/
def returnStmtTokens : List Token :=
  [tk .Return "return", numTk 1, tk .Semicolon ";", eofTk]

/-- Token stream of fun f ( a b ) with an empty body block. -/
def funDeclTokens : List Token :=
  [tk .Fun "fun", identTk "f", tk .LeftParen "(", identTk "a", identTk "b",
   tk .RightParen ")", tk .LeftBrace "brace", tk .RightBrace "brace", eofTk]

/-- Token stream of the call statement f ( 1 2 ) ; with no separator. -/
def callTokens : List Token :=
  [identTk "f", tk .LeftParen "(", numTk 1, numTk 2, tk .RightParen ")",
   tk .Semicolon ";", eofTk]

/-- Token stream of fun f ( a , b ) with an empty body block. -/
def funDeclCommaTokens : List Token :=
  [tk .Fun "fun", identTk "f", tk .LeftParen "(", identTk "a", commaTk, identTk "b",
   tk .RightParen ")", tk .LeftBrace "brace", tk .RightBrace "brace", eofTk]

/-- Token stream of the call statement f ( 1 , 2 ) ; with a separator. -/
def callCommaTokens : List Token :=
  [identTk "f", tk .LeftParen "(", numTk 1, commaTk, numTk 2, tk .RightParen ")",
   tk .Semicolon ";", eofTk]

/-- Error kind Runtime.run pairs with each signal at the program boundary. -/
def signalError : RuntimeSignal → RuntimeErrorKind
| .LoopBreak => .BreakNotWithinLoop
| .LoopContinue => .ContinueNotWithinLoop
| .FunctionReturn _ => .ReturnNotWithinFunction

end Lox

namespace Lox

/-- Identifier tokens for a list of parameter names. -/
def identToks (names : List String) : List Token := names.map identTk

/-- Bind on an ok Except value reduces to the continuation. -/
theorem exceptBind_ok {ε α β : Type} (a : α) (f : α → Except ε β) :
    (Except.ok a >>= f : Except ε β) = f a := rfl

/-- Bind on an error Except value keeps the error. -/
theorem exceptBind_error {ε α β : Type} (e : ε) (f : α → Except ε β) :
    (Except.error e >>= f : Except ε β) = .error e := rfl

/-- C9: equality on runtime values is not reflexive at Nil: nil == nil
evaluates to Boolean(false) and nil != nil to Boolean(true), because the
equality relation is false on every pair involving Nil. -/
theorem C9_nil_not_reflexive :
    evaluate 2 env0 (.Binary (.Literal .Nil) .Equal (.Literal .Nil))
      = .ok (.Boolean false, env0)
  ∧ evaluate 2 env0 (.Binary (.Literal .Nil) .NotEqual (.Literal .Nil))
      = .ok (.Boolean true, env0)
  ∧ (∀ v : RuntimeValue, rvEq RuntimeValue.Nil v = false)
  ∧ (∀ v : RuntimeValue, rvEq v RuntimeValue.Nil = false) := by
  refine ⟨rfl, rfl, fun v => ?_, fun v => ?_⟩ <;> cases v <;> rfl

/-- C4: a control signal surfacing from top-level execution makes run
return the matching not-within-loop/function error instead of success. -/
theorem C4_run_converts_signals (fuel : Nat) (program : List Statement)
    (sig : RuntimeSignal) (env1 : Environment)
    (h : runList fuel (Environment.mk [] none) program = .ok (some sig, env1)) :
    run fuel program = .error (.runtime (signalError sig))
    ∧ signalError .LoopBreak = .BreakNotWithinLoop
    ∧ signalError .LoopContinue = .ContinueNotWithinLoop
    ∧ (∀ v, signalError (.FunctionReturn v) = .ReturnNotWithinFunction)
    ∧ run fuel program ≠ .ok () := by
  have hrun : run fuel program = .error (.runtime (signalError sig)) := by
    simp only [run, h]
    cases sig <;> rfl
  exact ⟨hrun, rfl, rfl, fun v => rfl, by rw [hrun]; exact fun hc => Except.noConfusion hc⟩

/-- C4 witness: a stray top-level break produces the BreakNotWithinLoop
error; likewise a stray continue and a stray return map to their errors. -/
theorem C4_run_converts_signals_witness :
    runList 3 (Environment.mk [] none) [Statement.Break]
      = .ok (some .LoopBreak, Environment.mk [] none)
    ∧ run 3 [Statement.Break] = .error (.runtime .BreakNotWithinLoop)
    ∧ run 3 [Statement.Continue] = .error (.runtime .ContinueNotWithinLoop)
    ∧ run 3 [Statement.Return (lit 1)] = .error (.runtime .ReturnNotWithinFunction) := by
  refine ⟨rfl, ?_, ?_, ?_⟩
  · exact (C4_run_converts_signals 3 [Statement.Break] .LoopBreak (Environment.mk [] none) rfl).1
  · exact (C4_run_converts_signals 3 [Statement.Continue] .LoopContinue (Environment.mk [] none) rfl).1
  · exact (C4_run_converts_signals 3 [Statement.Return (lit 1)]
      (.FunctionReturn (.Integer 1)) (Environment.mk [] none) rfl).1

/-- C8: define fails with VariableAlreadyDefined exactly when the name is
bound in this Environment instance, never consulting ancestors; defining
into a fresh nested scope that shadows an ancestor always succeeds. -/
theorem C8_define_same_scope_only (values : List (String × RuntimeValue))
    (enclosing : Option Environment) (id : String) (v : RuntimeValue) :
    ((Environment.mk values enclosing).define id v =
      if hasKey values id then .error (.runtime (.VariableAlreadyDefined id))
      else .ok (.mk (listInsert values id v) enclosing))
    ∧ (∀ parent : Environment,
        (Environment.mk [] (some parent)).define id v = .ok (.mk [(id, v)] (some parent))) := by
  exact ⟨rfl, fun parent => rfl⟩

/-- C1: the parser rejects the statement return 1 ; — its statement
dispatch has no branch for the return keyword, so the tokens fall through
to an expression statement and fail with ExpressionExprected, and no
Return node is ever produced. -/
theorem C1_return_statement_rejected :
    parseRun 30 returnStmtTokens = .error (.kind .ExpressionExprected) := rfl

end Lox

namespace Lox

/-- C2 counterexample: the ternary with condition Integer(1) — truthy by
the coercion table, so the claim demands the then branch (Integer 10) —
actually evaluates the alternative branch and yields Integer 20, because
Runtime.conditional tests the condition with == Boolean(true) instead of
the truthiness coercion the statement form applies. -/
theorem C2_ternary_counterexample :
    evaluate 5 env0 (.Conditional (lit 1) (lit 10) (lit 20)) = .ok (.Integer 20, env0)
  ∧ truthy (.Integer 1) = true
  ∧ evaluate 5 env0 (.Conditional (lit 1) (lit 10) (lit 20)) ≠ .ok (.Integer 10, env0) := by
  have h20 : evaluate 5 env0 (.Conditional (lit 1) (lit 10) (lit 20))
      = .ok (.Integer 20, env0) := rfl
  refine ⟨h20, rfl, ?_⟩
  rw [h20]
  intro hc
  simp only [Except.ok.injEq, Prod.mk.injEq, RuntimeValue.Integer.injEq] at hc
  omega

/-- C2 amended: the ternary Conditional expression evaluates its condition
and takes the then branch exactly when the condition value equals
Boolean(true) under the runtime equality — so every non-Boolean(true)
condition, including truthy integers, floats and strings, selects the
alternative; it agrees with the statement form only on Boolean
conditions. -/
theorem C2_ternary_branches_on_boolean_true (fuel : Nat) (env : Environment)
    (c t a : Expression) (v : RuntimeValue) (env1 : Environment)
    (h : evaluate fuel env c = .ok (v, env1)) :
    evaluate (fuel+1) env (.Conditional c t a)
      = (if rvEq v (.Boolean true) then evaluate fuel env1 t else evaluate fuel env1 a)
    ∧ (rvEq v (.Boolean true) = true ↔ v = .Boolean true) := by
  constructor
  · simp [evaluate, h, exceptBind_ok]
  · cases v <;> simp [rvEq]

/-- C2 witness: applying the amended theorem at condition literal 1 in the
fresh environment. -/
theorem C2_ternary_branches_on_boolean_true_witness :
    evaluate 2 env0 (.Conditional (lit 1) (lit 10) (lit 20))
      = (if rvEq (.Integer 1) (.Boolean true) then evaluate 1 env0 (lit 10)
         else evaluate 1 env0 (lit 20)) := by
  exact (C2_ternary_branches_on_boolean_true 1 env0 (lit 1) (lit 10) (lit 20)
    (.Integer 1) env0 rfl).1

/-- Unordered pairs under partial_cmp: whenever an operand is not numeric
the comparison is None. -/
theorem rvCmp_none (v w : RuntimeValue)
    (h : numericQ v = none ∨ numericQ w = none) : rvCmp v w = none := by
  cases v <;> cases w <;> simp_all [numericQ, rvCmp]

/-- C3 counterexample: the ordering comparison of two strings evaluates to
Boolean(false) instead of failing with ExpectedNumberOperand as the claim
states. -/
theorem C3_ordering_counterexample :
    evaluate 2 env0 (.Binary (slit "a") .Less (slit "b")) = .ok (.Boolean false, env0)
  ∧ evaluate 2 env0 (.Binary (slit "a") .Less (slit "b"))
      ≠ .error (.runtime .ExpectedNumberOperand) := by
  refine ⟨rfl, ?_⟩
  intro hc
  rw [show evaluate 2 env0 (.Binary (slit "a") .Less (slit "b"))
      = .ok (.Boolean false, env0) from rfl] at hc
  exact Except.noConfusion hc

/-- C3 amended: equality and inequality behave as claimed — numeric
equality with promotion, String with String, Boolean with Boolean, false
on every cross-type or unordered pair, with != the negation — but the
ordering operators never fail: whenever an operand is outside the numeric
types the pair is unordered and all four ordering comparisons evaluate to
Boolean(false) rather than the ExpectedNumberOperand error. -/
theorem C3_comparisons_behavior (fuel : Nat) (env env1 env2 : Environment)
    (e1 e2 : Expression) (v w : RuntimeValue)
    (h1 : evaluate fuel env e1 = .ok (v, env1))
    (h2 : evaluate fuel env1 e2 = .ok (w, env2))
    (hnn : numericQ v = none ∨ numericQ w = none) :
    (∀ x y : RuntimeValue, rvEq x y = rvEqSpec x y)
    ∧ (∀ x y : RuntimeValue, rvNe x y = !(rvEq x y))
    ∧ evaluate (fuel+1) env (.Binary e1 .Equal e2) = .ok (.Boolean (rvEq v w), env2)
    ∧ evaluate (fuel+1) env (.Binary e1 .NotEqual e2) = .ok (.Boolean (rvNe v w), env2)
    ∧ evaluate (fuel+1) env (.Binary e1 .Less e2) = .ok (.Boolean false, env2)
    ∧ evaluate (fuel+1) env (.Binary e1 .LessOrEqual e2) = .ok (.Boolean false, env2)
    ∧ evaluate (fuel+1) env (.Binary e1 .Greater e2) = .ok (.Boolean false, env2)
    ∧ evaluate (fuel+1) env (.Binary e1 .GreaterOrEqual e2) = .ok (.Boolean false, env2) := by
  have hcmp : rvCmp v w = none := rvCmp_none v w hnn
  refine ⟨?_, fun x y => rfl, ?_, ?_, ?_, ?_, ?_, ?_⟩
  · intro x y
    cases x <;> cases y <;>
      simp [rvEq, rvEqSpec, numericQ, beq_eq_decide, Int.cast_inj]
  · simp [evaluate, h1, h2, exceptBind_ok]
  · simp [evaluate, h1, h2, exceptBind_ok]
  · simp [evaluate, h1, h2, exceptBind_ok, rvLt, hcmp]
  · simp [evaluate, h1, h2, exceptBind_ok, rvLe, hcmp]
  · simp [evaluate, h1, h2, exceptBind_ok, rvGt, hcmp]
  · simp [evaluate, h1, h2, exceptBind_ok, rvGe, hcmp]

/-- C3 witness: applying the amended theorem to the string comparison
"a" < "b" in the fresh environment. -/
theorem C3_comparisons_behavior_witness :
    evaluate 2 env0 (.Binary (slit "a") .Less (slit "b")) = .ok (.Boolean false, env0)
    ∧ (numericQ (RuntimeValue.String "a") = none ∨ numericQ (RuntimeValue.String "b") = none) := by
  exact ⟨(C3_comparisons_behavior 1 env0 env0 env0 (slit "a") (slit "b")
    (.String "a") (.String "b") rfl rfl (Or.inl rfl)).2.2.2.2.1, Or.inl rfl⟩

end Lox

namespace Lox

/-- C6: Conjunction and Disjunction short-circuit — when the left
truthiness already determines the result the outcome is fixed without the right
operand (the equations hold for every right expression, a divergent or
failing one included), otherwise the result is the truthiness of the
evaluated right side; in particular false and (1/0) and true or (1/0)
evaluate to Booleans although 1/0 alone is a zero-division error. -/
theorem C6_short_circuit (fuel : Nat) (env env1 : Environment)
    (e1 e2 : Expression) (v : RuntimeValue)
    (h1 : evaluate fuel env e1 = .ok (v, env1)) :
    (truthy v = false →
      evaluate (fuel+1) env (.Binary e1 .Conjunction e2) = .ok (.Boolean false, env1))
    ∧ (truthy v = true →
      evaluate (fuel+1) env (.Binary e1 .Conjunction e2)
        = (match evaluate fuel env1 e2 with
           | .ok (rv, env2) => .ok (.Boolean (truthy rv), env2)
           | .error err => .error err))
    ∧ (truthy v = true →
      evaluate (fuel+1) env (.Binary e1 .Disjunction e2) = .ok (.Boolean true, env1))
    ∧ (truthy v = false →
      evaluate (fuel+1) env (.Binary e1 .Disjunction e2)
        = (match evaluate fuel env1 e2 with
           | .ok (rv, env2) => .ok (.Boolean (truthy rv), env2)
           | .error err => .error err))
    ∧ evaluate 3 env0 (.Binary (blit false) .Conjunction (.Binary (lit 1) .Division (lit 0)))
        = .ok (.Boolean false, env0)
    ∧ evaluate 3 env0 (.Binary (blit true) .Disjunction (.Binary (lit 1) .Division (lit 0)))
        = .ok (.Boolean true, env0)
    ∧ evaluate 3 env0 (.Binary (lit 1) .Division (lit 0))
        = .error (.runtime .ZeroDivision) := by
  refine ⟨?_, ?_, ?_, ?_, rfl, rfl, rfl⟩ <;> intro hv
  · simp [evaluate, h1, exceptBind_ok, hv]
  · simp only [evaluate, h1, exceptBind_ok, hv, if_pos]
    cases hr : evaluate fuel env1 e2 with
    | ok p => cases p; simp [exceptBind_ok]
    | error err => rfl
  · simp [evaluate, h1, exceptBind_ok, hv]
  · simp only [evaluate, h1, exceptBind_ok, hv]
    cases hr : evaluate fuel env1 e2 with
    | ok p => cases p; simp [exceptBind_ok]
    | error err => rfl

/-- C6 witness: the short-circuit equations applied to false and (1/0). -/
theorem C6_short_circuit_witness :
    evaluate 2 env0 (.Binary (blit false) .Conjunction (.Binary (lit 1) .Division (lit 0)))
      = .ok (.Boolean false, env0) := by
  exact (C6_short_circuit 1 env0 env0 (blit false) (.Binary (lit 1) .Division (lit 0))
    (.Boolean false) rfl).1 rfl

end Lox



namespace Lox

/-- Round to nearest of an integer is itself. -/
theorem rne_intCast (k : ℤ) : rne (k : ℚ) = k := by
  simp [rne]

/-- Round to nearest moves a rational by at most one half. -/
theorem abs_rne_sub_le (s : ℚ) : |(rne s : ℚ) - s| ≤ 1/2 := by
  have h0 : (0:ℚ) ≤ s - ⌊s⌋ := by
    have := Int.floor_le s
    linarith
  have h1 : s - ⌊s⌋ < 1 := by
    have := Int.lt_floor_add_one s
    linarith
  unfold rne
  by_cases hlt : s - ⌊s⌋ < 1/2
  · simp only [hlt, if_pos]
    rw [abs_le]
    constructor <;> linarith
  · by_cases hgt : 1/2 < s - ⌊s⌋
    · simp only [hlt, if_neg, hgt, if_pos, not_false_iff]
      push_cast
      rw [abs_le]
      constructor <;> linarith
    · have heq : s - ⌊s⌋ = 1/2 := le_antisymm (not_lt.mp hgt) (not_lt.mp hlt)
      by_cases hdvd : 2 ∣ ⌊s⌋
      · simp only [hlt, hgt, hdvd, if_neg, if_pos, not_false_iff]
        rw [abs_le]
        constructor <;> linarith
      · simp only [hlt, hgt, hdvd, if_neg, not_false_iff]
        push_cast
        rw [abs_le]
        constructor <;> linarith

/-- Rounding fixes zero. -/
theorem roundF64_zero : roundF64 0 = 0 := by
  simp [roundF64]

/-- Rounding fixes every rational whose 53-bit significand is already an
integer. -/
theorem roundF64_of_sig_int (q : ℚ) (hq : q ≠ 0) (m : ℤ)
    (hm : |q| * (2:ℚ)^((52:ℤ) - Int.log 2 |q|) = m) : roundF64 q = q := by
  unfold roundF64
  rw [if_neg hq]
  set e : ℤ := Int.log 2 |q| with he
  simp only [hm, rne_intCast]
  have hpow : (2:ℚ)^((52:ℤ) - e) * (2:ℚ)^(e - 52) = 1 := by
    rw [← zpow_add₀ (by norm_num : (2:ℚ) ≠ 0),
      show (52:ℤ) - e + (e - 52) = 0 from by ring, zpow_zero]
  have key : (m:ℚ) * (2:ℚ)^(e - 52) = |q| := by
    rw [← hm, mul_assoc, hpow, mul_one]
  by_cases hneg : q < 0
  · rw [if_pos hneg]
    rw [abs_of_neg hneg] at key
    linarith [key]
  · rw [if_neg hneg]
    rw [abs_of_nonneg (not_lt.mp hneg)] at key
    exact key

/-- Characterization of the binary logarithm by its bracketing powers. -/
theorem int_log_eq (q : ℚ) (e : ℤ) (h0 : 0 < q) (h1 : (2:ℚ)^e ≤ q)
    (h2 : q < (2:ℚ)^(e+1)) : Int.log 2 q = e := by
  have ha : e ≤ Int.log 2 q := by
    rw [← Int.zpow_le_iff_le_log (by norm_num) h0]
    exact_mod_cast h1
  have hb : Int.log 2 q < e + 1 := by
    rw [← Int.lt_zpow_iff_log_lt (by norm_num) h0]
    exact_mod_cast h2
  omega

/-- The i64 to f64 cast is exact up to magnitude 2 to the 53. -/
theorem roundF64_intCast (k : ℤ) (hk : |k| ≤ 2^53) : roundF64 (k:ℚ) = (k:ℚ) := by
  by_cases hk0 : k = 0
  · subst hk0
    simpa using roundF64_zero
  have hq : (k:ℚ) ≠ 0 := Int.cast_ne_zero.mpr hk0
  have habs : |(k:ℚ)| = ((|k| : ℤ) : ℚ) := by
    push_cast
    rfl
  have hpos : (0:ℚ) < |(k:ℚ)| := abs_pos.mpr hq
  have hlog := Int.zpow_log_le_self (b := 2) (by norm_num) hpos
  by_cases hcase : Int.log 2 |(k:ℚ)| ≤ 52
  · refine roundF64_of_sig_int _ hq (|k| * 2^((52 - Int.log 2 |(k:ℚ)|).toNat)) ?_
    rw [habs]
    push_cast
    rw [← zpow_natCast (2:ℚ) ((52 - Int.log 2 |(k:ℚ)|).toNat),
      Int.toNat_of_nonneg (by omega)]
  · have h53 : (2:ℚ)^(53:ℤ) ≤ |(k:ℚ)| := by
      calc (2:ℚ)^(53:ℤ) ≤ (2:ℚ)^(Int.log 2 |(k:ℚ)|) :=
            zpow_le_zpow_right₀ (by norm_num) (by omega)
        _ ≤ |(k:ℚ)| := hlog
    have hk53 : |k| = 2^53 := by
      have hup : ((|k|:ℤ):ℚ) ≤ ((2^53:ℤ):ℚ) := by exact_mod_cast hk
      have hdown : ((2^53:ℤ):ℚ) ≤ ((|k|:ℤ):ℚ) := by
        rw [← habs]
        calc ((2^53:ℤ):ℚ) = (2:ℚ)^(53:ℤ) := by norm_num
          _ ≤ |(k:ℚ)| := h53
      exact_mod_cast le_antisymm hup hdown
    have he : Int.log 2 |(k:ℚ)| = 53 := by
      refine int_log_eq _ _ hpos h53 ?_
      rw [habs, hk53]
      norm_num
    refine roundF64_of_sig_int _ hq (2^52) ?_
    rw [he, habs, hk53]
    norm_num

/-- Rounding commutes with negation. -/
theorem roundF64_neg (q : ℚ) : roundF64 (-q) = -(roundF64 q) := by
  by_cases hq : q = 0
  · subst hq
    simp [roundF64_zero]
  unfold roundF64
  rw [if_neg hq, if_neg (neg_ne_zero.mpr hq), abs_neg]
  dsimp only
  rcases lt_trichotomy q 0 with hneg | hzero | hpos
  · rw [if_neg (by linarith : ¬ -q < 0), if_pos hneg]
    ring
  · exact absurd hzero hq
  · rw [if_pos (by linarith : -q < 0), if_neg (by linarith : ¬ q < 0)]
    ring

/-- Rounding a positive rational moves it by at most half an ulp. -/
theorem roundF64_err (q : ℚ) (hq : 0 < q) :
    |roundF64 q - q| ≤ (2:ℚ)^(Int.log 2 q - 53) := by
  unfold roundF64
  rw [if_neg (ne_of_gt hq)]
  dsimp only
  rw [if_neg (by linarith : ¬ q < 0), abs_of_pos hq]
  set e : ℤ := Int.log 2 q with he
  set s : ℚ := q * (2:ℚ)^((52:ℤ) - e) with hs
  have hqs : q = s * (2:ℚ)^(e - 52) := by
    rw [hs, mul_assoc, ← zpow_add₀ (by norm_num : (2:ℚ) ≠ 0),
      show (52:ℤ) - e + (e - 52) = 0 from by ring, zpow_zero, mul_one]
  have hpow : (0:ℚ) < (2:ℚ)^(e - 52) := zpow_pos (by norm_num) _
  calc |(rne s : ℚ) * (2:ℚ)^(e - 52) - q|
      = |(rne s : ℚ) - s| * (2:ℚ)^(e - 52) := by
        rw [hqs]
        rw [← sub_mul, abs_mul, abs_of_pos hpow]
    _ ≤ (1/2) * (2:ℚ)^(e - 52) :=
        mul_le_mul_of_nonneg_right (abs_rne_sub_le s) (le_of_lt hpow)
    _ = (2:ℚ)^(e - 53) := by
        rw [show (1:ℚ)/2 = (2:ℚ)^(-1:ℤ) from by norm_num,
          ← zpow_add₀ (by norm_num : (2:ℚ) ≠ 0),
          show (-1:ℤ) + (e - 52) = e - 53 from by ring]

/-- The core classification fact: the rounded f64 quotient of two exactly
representable positive integers is never integer-valued when the divisor
does not divide the dividend — the distance from the true quotient to the
nearest integer is at least the reciprocal of the divisor, which exceeds
half an ulp everywhere except a boundary case that forces divisibility. -/
theorem roundF64_div_den_ne_one (a b : ℤ) (ha : 0 < a) (hA : a ≤ 2^53)
    (hb : 0 < b) (hB : b ≤ 2^53) (hnd : ¬ b ∣ a) :
    (roundF64 ((a:ℚ)/(b:ℚ))).den ≠ 1 := by
  have haQ : (0:ℚ) < (a:ℚ) := by exact_mod_cast ha
  have hbQ : (0:ℚ) < (b:ℚ) := by exact_mod_cast hb
  have haQ53 : (a:ℚ) ≤ (2:ℚ)^(53:ℤ) := by
    calc (a:ℚ) ≤ ((2^53:ℤ):ℚ) := by exact_mod_cast hA
      _ = (2:ℚ)^(53:ℤ) := by norm_num
  have hbQ53 : (b:ℚ) ≤ (2:ℚ)^(53:ℤ) := by
    calc (b:ℚ) ≤ ((2^53:ℤ):ℚ) := by exact_mod_cast hB
      _ = (2:ℚ)^(53:ℤ) := by norm_num
  set q : ℚ := (a:ℚ)/(b:ℚ) with hq
  have hq0 : 0 < q := div_pos haQ hbQ
  intro hden
  have hint : ((roundF64 q).num : ℚ) = roundF64 q := (Rat.den_eq_one_iff _).mp hden
  set k : ℤ := (roundF64 q).num with hkdef
  set e : ℤ := Int.log 2 q with he
  have herr : |(k:ℚ) - q| ≤ (2:ℚ)^(e - 53) := by
    rw [hint]
    exact roundF64_err q hq0
  have hkb : k * b ≠ a := by
    intro hco
    exact hnd ⟨k, by rw [← hco]; ring⟩
  have hdist : (1:ℚ)/(b:ℚ) ≤ |(k:ℚ) - q| := by
    have hrw : (k:ℚ) - q = ((k*b - a : ℤ):ℚ) / (b:ℚ) := by
      rw [hq]
      field_simp
    rw [hrw, abs_div, abs_of_pos hbQ]
    have h1 : (1:ℚ) ≤ |((k*b - a : ℤ):ℚ)| := by
      rw [← Int.cast_abs]
      exact_mod_cast Int.one_le_abs (sub_ne_zero.mpr hkb)
    gcongr
  have h1b : (1:ℚ)/(b:ℚ) ≤ (2:ℚ)^(e - 53) := le_trans hdist herr
  have h2 : (2:ℚ)^(53 - e) ≤ (b:ℚ) := by
    rw [div_le_iff₀ hbQ] at h1b
    calc (2:ℚ)^(53-e) = (2:ℚ)^(53-e) * 1 := by ring
      _ ≤ (2:ℚ)^(53-e) * ((2:ℚ)^(e-53) * (b:ℚ)) :=
          mul_le_mul_of_nonneg_left h1b (le_of_lt (zpow_pos (by norm_num) _))
      _ = (b:ℚ) := by
          rw [← mul_assoc, ← zpow_add₀ (by norm_num : (2:ℚ) ≠ 0),
            show (53:ℤ) - e + (e - 53) = 0 from by ring, zpow_zero, one_mul]
  have h3 : (2:ℚ)^e * (b:ℚ) ≤ (a:ℚ) := by
    have hlog := Int.zpow_log_le_self (b := 2) (by norm_num) hq0
    rw [← he] at hlog
    rw [hq] at hlog
    exact_mod_cast (le_div_iff₀ hbQ).mp hlog
  have h4 : (2:ℚ)^e * (b:ℚ) ≤ (2:ℚ)^(53:ℤ) := le_trans h3 haQ53
  have h5 : (2:ℚ)^(53:ℤ) ≤ (2:ℚ)^e * (b:ℚ) := by
    calc (2:ℚ)^(53:ℤ) = (2:ℚ)^e * (2:ℚ)^(53-e) := by
          rw [← zpow_add₀ (by norm_num : (2:ℚ) ≠ 0),
            show e + (53 - e) = 53 from by ring]
      _ ≤ (2:ℚ)^e * (b:ℚ) :=
          mul_le_mul_of_nonneg_left h2 (le_of_lt (zpow_pos (by norm_num) _))
  have h6 : (2:ℚ)^e * (b:ℚ) = (2:ℚ)^(53:ℤ) := le_antisymm h4 h5
  have h7 : (a:ℚ) = (2:ℚ)^(53:ℤ) := le_antisymm haQ53 (h6 ▸ h3)
  have he0 : 0 ≤ e := by
    by_contra hneg
    push_neg at hneg
    have hgt : (2:ℚ)^(53:ℤ) < (2:ℚ)^(53 - e) :=
      zpow_lt_zpow_right₀ (by norm_num) (by omega)
    linarith [h2]
  have hq2e : q = (2:ℚ)^e := by
    rw [hq, h7, ← h6]
    field_simp
  have haeq : (a:ℚ) = (b:ℚ) * ((2^(e.toNat):ℤ):ℚ) := by
    have hqb : q * (b:ℚ) = (a:ℚ) := by
      rw [hq]
      field_simp
    rw [← hqb, hq2e,
      show ((2^(e.toNat):ℤ):ℚ) = (2:ℚ)^e from by
        push_cast
        rw [← zpow_natCast (2:ℚ) e.toNat, Int.toNat_of_nonneg he0]]
    ring
  have haz : a = b * 2^(e.toNat) := by exact_mod_cast haeq
  exact hnd ⟨2^(e.toNat), haz⟩

/-- Rounding preserves the denominator up to sign. -/
theorem roundF64_den_abs (x : ℚ) : (roundF64 |x|).den = (roundF64 x).den := by
  rcases le_or_lt 0 x with h | h
  · rw [abs_of_nonneg h]
  · rw [abs_of_neg h, roundF64_neg, Rat.neg_den]

/-- Within the f64-exact range, an even Integer division stays Integer with
the exact quotient. -/
theorem rvDiv_int_dvd (a b : ℤ) (hA : |a| ≤ 2^53) (hB : |b| ≤ 2^53)
    (hb : b ≠ 0) (h : b ∣ a) :
    rvDiv (.Integer a) (.Integer b) = some (.Integer (a / b)) := by
  have hcastA : roundF64 ((a:ℚ)) = (a:ℚ) := roundF64_intCast a hA
  have hcastB : roundF64 ((b:ℚ)) = (b:ℚ) := roundF64_intCast b hB
  have hquot : (a:ℚ)/(b:ℚ) = ((a / b : ℤ):ℚ) := (Rat.intCast_div a b h).symm
  have habq : |a / b| ≤ 2^53 := by
    calc |a / b| = ((a / b).natAbs : ℤ) := (Int.abs_eq_natAbs _)
      _ ≤ (a.natAbs : ℤ) := by exact_mod_cast Int.natAbs_div_le_natAbs a b
      _ = |a| := (Int.abs_eq_natAbs _).symm
      _ ≤ 2^53 := hA
  have hround : roundF64 ((a:ℚ)/(b:ℚ)) = ((a/b : ℤ):ℚ) := by
    rw [hquot]
    exact roundF64_intCast _ habq
  simp [rvDiv, hcastA, hcastB, hround]

/-- Within the f64-exact range, an uneven Integer division promotes to
Float, carrying the rounded quotient. -/
theorem rvDiv_int_ndvd (a b : ℤ) (hA : |a| ≤ 2^53) (hB : |b| ≤ 2^53)
    (hb : b ≠ 0) (h : ¬ b ∣ a) :
    rvDiv (.Integer a) (.Integer b) = some (.Float (roundF64 ((a:ℚ)/(b:ℚ)))) := by
  have ha0 : a ≠ 0 := by
    rintro rfl
    exact h (dvd_zero b)
  have hABS : |(a:ℚ)/(b:ℚ)| = ((|a|:ℤ):ℚ)/((|b|:ℤ):ℚ) := by
    rw [abs_div, Int.cast_abs, Int.cast_abs]
  have hnd2 : ¬ (|b| ∣ |a|) := fun hc => h ((dvd_abs b a).mp ((abs_dvd b |a|).mp hc))
  have hpos := roundF64_div_den_ne_one (|a|) (|b|) (abs_pos.mpr ha0) hA
    (abs_pos.mpr hb) hB hnd2
  have hden : (roundF64 ((a:ℚ)/(b:ℚ))).den ≠ 1 := by
    rw [← roundF64_den_abs, hABS]
    exact hpos
  have hcastA : roundF64 ((a:ℚ)) = (a:ℚ) := roundF64_intCast a hA
  have hcastB : roundF64 ((b:ℚ)) = (b:ℚ) := roundF64_intCast b hB
  simp [rvDiv, hcastA, hcastB, hden]

/-- Evaluation of the rounding at a known exponent and significand. -/
theorem roundF64_pos_eval (q : ℚ) (hq : 0 < q) (e : ℤ) (m : ℤ)
    (hlog : Int.log 2 q = e) (hm : rne (q * (2:ℚ)^((52:ℤ) - e)) = m) :
    roundF64 q = (m:ℚ) * (2:ℚ)^(e - 52) := by
  unfold roundF64
  rw [if_neg (ne_of_gt hq)]
  dsimp only
  rw [if_neg (by linarith : ¬ q < 0), abs_of_pos hq, hlog, hm]

/-- Round to nearest picks the floor when the fractional part is small. -/
theorem rne_eq_floor (s : ℚ) (f : ℤ) (hf : ⌊s⌋ = f) (h : s - f < 1/2) :
    rne s = f := by
  unfold rne
  rw [hf, if_pos h]

/-- Round to nearest picks the even endpoint on a tie. -/
theorem rne_tie_even (s : ℚ) (f : ℤ) (hf : ⌊s⌋ = f) (h : s - f = 1/2)
    (he : 2 ∣ f) : rne s = f := by
  unfold rne
  rw [hf, h]
  norm_num [he]

/-- The f64 cast rounds the odd value one past 2 to the 53 down to it. -/
theorem roundF64_succ_pow53 : roundF64 (9007199254740993 : ℚ) = 9007199254740992 := by
  have hlog : Int.log 2 (9007199254740993:ℚ) = 53 :=
    int_log_eq _ _ (by norm_num) (by norm_num) (by norm_num)
  have hfloor : ⌊(9007199254740993:ℚ) * (2:ℚ)^((52:ℤ) - 53)⌋ = 4503599627370496 := by
    rw [show (52:ℤ) - 53 = -1 from by norm_num, zpow_neg_one, Int.floor_eq_iff]
    norm_num
  have hm : rne ((9007199254740993:ℚ) * (2:ℚ)^((52:ℤ) - 53)) = 4503599627370496 := by
    refine rne_tie_even _ _ hfloor ?_ (by norm_num)
    rw [show (52:ℤ) - 53 = -1 from by norm_num, zpow_neg_one]
    norm_num
  rw [roundF64_pos_eval _ (by norm_num) 53 _ hlog hm]
  norm_num

/-- The f64 quotient of 2 to the 53 by three rounds to a half-integer. -/
theorem roundF64_quot_c5 : roundF64 ((9007199254740992:ℚ)/3) = 6004799503160661/2 := by
  have hq : (0:ℚ) < 9007199254740992/3 := by norm_num
  have hlog : Int.log 2 ((9007199254740992:ℚ)/3) = 51 :=
    int_log_eq _ _ hq (by norm_num) (by norm_num)
  have hfloor : ⌊((9007199254740992:ℚ)/3) * (2:ℚ)^((52:ℤ) - 51)⌋ = 6004799503160661 := by
    rw [show (52:ℤ) - 51 = 1 from by norm_num, zpow_one, Int.floor_eq_iff]
    norm_num
  have hm : rne (((9007199254740992:ℚ)/3) * (2:ℚ)^((52:ℤ) - 51)) = 6004799503160661 := by
    refine rne_eq_floor _ _ hfloor ?_
    rw [show (52:ℤ) - 51 = 1 from by norm_num, zpow_one]
    norm_num
  rw [roundF64_pos_eval _ hq 51 _ hlog hm]
  rw [show (51:ℤ) - 52 = -1 from by norm_num, zpow_neg_one]
  norm_num

/-- Seven halves is exactly representable, so rounding fixes it. -/
theorem roundF64_sevenHalves : roundF64 ((7:ℚ)/2) = 7/2 := by
  have hlog : Int.log 2 |(7:ℚ)/2| = 1 := by
    rw [abs_of_pos (by norm_num)]
    exact int_log_eq _ _ (by norm_num) (by norm_num) (by norm_num)
  refine roundF64_of_sig_int _ (by norm_num) (7 * 2^50) ?_
  rw [hlog, abs_of_pos (by norm_num), show (52:ℤ) - 1 = 51 from by norm_num]
  push_cast
  norm_num

/-- Dividing the Integer one past 2 to the 53 by three yields a Float. -/
theorem rvDiv_c5_instance :
    rvDiv (.Integer 9007199254740993) (.Integer 3)
      = some (.Float (6004799503160661/2)) := by
  have hA : roundF64 ((9007199254740993:ℤ):ℚ) = (9007199254740992:ℚ) := by
    push_cast
    exact roundF64_succ_pow53
  have hB : roundF64 ((3:ℤ):ℚ) = ((3:ℤ):ℚ) := roundF64_intCast 3 (by norm_num)
  have hq2 : roundF64 (roundF64 ((9007199254740993:ℤ):ℚ) / roundF64 ((3:ℤ):ℚ))
      = 6004799503160661/2 := by
    rw [hA, hB]
    push_cast
    exact roundF64_quot_c5
  have hden : ((6004799503160661:ℚ)/2).den ≠ 1 := by
    rw [show (6004799503160661:ℚ)/2 = ((6004799503160661:ℤ):ℚ)/((2:ℤ):ℚ) from by
      push_cast
      rfl]
    intro hc
    exact (by decide : ¬ (2:ℤ) ∣ 6004799503160661)
      ((Rat.den_div_intCast_eq_one_iff _ _ (by norm_num)).mp hc)
  push_cast at hq2
  simp [rvDiv, hq2, hden]

/-- C5 counterexample: an even division beyond the f64-exact range is
misclassified. The value Integer(9007199254740993) — one past 2 to the 53,
reachable as 9007199254740992 + 1 since i64 addition is exact — is
divisible by 3, yet dividing it by 3 yields Float(6004799503160661/2),
because the cast to f64 rounds the dividend down to 2 to the 53 and the
rounded quotient has fractional part one half; the claim demands
Integer(3002399751580331). -/
theorem C5_division_counterexample :
    (3:ℤ) ∣ 9007199254740993
  ∧ evaluate 3 env0 (.Binary (.Binary (lit 9007199254740992) .Addition (lit 1))
      .Division (lit 3)) = .ok (.Float (6004799503160661/2), env0)
  ∧ evaluate 3 env0 (.Binary (.Binary (lit 9007199254740992) .Addition (lit 1))
      .Division (lit 3)) ≠ .ok (.Integer 3002399751580331, env0) := by
  have lbig : literalValue (.Number 9007199254740992) = .Integer 9007199254740992 := rfl
  have lone : literalValue (.Number 1) = .Integer 1 := rfl
  have l3 : literalValue (.Number 3) = .Integer 3 := rfl
  have hadd : rvAdd (.Integer 9007199254740992) (.Integer 1)
      = some (.Integer 9007199254740993) := rfl
  have hz1 : rvEq (.Integer 3) (.Integer 0) = false := by decide
  have hz2 : rvEq (.Integer 3) (.Float 0) = false := by decide
  have heval : evaluate 3 env0 (.Binary (.Binary (lit 9007199254740992) .Addition (lit 1))
      .Division (lit 3)) = .ok (.Float (6004799503160661/2), env0) := by
    simp [evaluate, lit, exceptBind_ok, lbig, lone, l3, hadd, hz1, hz2,
      rvDiv_c5_instance, liftOperand]
  refine ⟨by decide, heval, ?_⟩
  rw [heval]
  intro hc
  simp only [Except.ok.injEq, Prod.mk.injEq] at hc
  exact RuntimeValue.noConfusion hc.1

/-- C5 amended: a division whose right operand equals Integer(0) or
Float(0.0) fails with ZeroDivision before the operand dispatch, for any
left operand and never with ExpectedNumberOperand; with a non-zero divisor
the Integer by Integer result is the correctly rounded f64 quotient of the
rounded casts, so within magnitude 2 to the 53 — where casts and quotient
are exact — the claimed rule holds: Integer exactly when the division is
even (6 / 3 is Integer 2), Float otherwise (7 / 2 is Float 3.5); beyond
that range the rule fails ((9007199254740992 + 1) / 3 yields a Float
although the division is even); any Float operand yields a Float, and
10 / 0 (also 10 / 0.0, whose literal carries the same rational zero) is a
ZeroDivision. -/
theorem C5_division_rounded (fuel : Nat) (env env1 env2 : Environment)
    (e1 e2 : Expression) (v w : RuntimeValue)
    (h1 : evaluate fuel env e1 = .ok (v, env1))
    (h2 : evaluate fuel env1 e2 = .ok (w, env2)) :
    (rvEq w (.Integer 0) = true ∨ rvEq w (.Float 0) = true →
      evaluate (fuel+1) env (.Binary e1 .Division e2) = .error (.runtime .ZeroDivision))
  ∧ (rvEq w (.Integer 0) = false → rvEq w (.Float 0) = false →
      evaluate (fuel+1) env (.Binary e1 .Division e2) = liftOperand (rvDiv v w) env2)
  ∧ (∀ a b : ℤ, |a| ≤ 2^53 → |b| ≤ 2^53 → b ≠ 0 → b ∣ a →
      rvDiv (.Integer a) (.Integer b) = some (.Integer (a / b)))
  ∧ (∀ a b : ℤ, |a| ≤ 2^53 → |b| ≤ 2^53 → b ≠ 0 → ¬ b ∣ a →
      rvDiv (.Integer a) (.Integer b) = some (.Float (roundF64 ((a:ℚ) / (b:ℚ)))))
  ∧ (∀ (p : ℚ) (b : ℤ), rvDiv (.Float p) (.Integer b) = some (.Float (p / (b:ℚ))))
  ∧ (∀ (a : ℤ) (q : ℚ), rvDiv (.Integer a) (.Float q) = some (.Float ((a:ℚ) / q)))
  ∧ (∀ p q : ℚ, rvDiv (.Float p) (.Float q) = some (.Float (p / q)))
  ∧ evaluate 2 env0 (.Binary (lit 6) .Division (lit 3)) = .ok (.Integer 2, env0)
  ∧ evaluate 2 env0 (.Binary (lit 7) .Division (lit 2)) = .ok (.Float (7/2), env0)
  ∧ evaluate 2 env0 (.Binary (lit 10) .Division (lit 0))
      = .error (.runtime .ZeroDivision)
  ∧ rvDiv (.Integer 9007199254740993) (.Integer 3)
      = some (.Float (6004799503160661/2)) := by
  refine ⟨?_, ?_, rvDiv_int_dvd, rvDiv_int_ndvd,
    fun p b => rfl, fun a q => rfl, fun p q => rfl, ?_, ?_, rfl, rvDiv_c5_instance⟩
  · intro hz
    simp [evaluate, h1, h2, exceptBind_ok, hz]
  · intro hz1 hz2
    simp [evaluate, h1, h2, exceptBind_ok, hz1, hz2]
  · have l6 : literalValue (.Number 6) = .Integer 6 := rfl
    have l3 : literalValue (.Number 3) = .Integer 3 := rfl
    have hz1 : rvEq (.Integer 3) (.Integer 0) = false := by decide
    have hz2 : rvEq (.Integer 3) (.Float 0) = false := by decide
    have hdiv : rvDiv (.Integer 6) (.Integer 3) = some (.Integer 2) := by
      have h := rvDiv_int_dvd 6 3 (by norm_num) (by norm_num) (by norm_num) (by norm_num)
      simpa using h
    simp [evaluate, lit, exceptBind_ok, l6, l3, hz1, hz2, hdiv, liftOperand]
  · have l7 : literalValue (.Number 7) = .Integer 7 := rfl
    have l2 : literalValue (.Number 2) = .Integer 2 := rfl
    have hz1 : rvEq (.Integer 2) (.Integer 0) = false := by decide
    have hz2 : rvEq (.Integer 2) (.Float 0) = false := by decide
    have hdiv : rvDiv (.Integer 7) (.Integer 2) = some (.Float (7/2)) := by
      have h := rvDiv_int_ndvd 7 2 (by norm_num) (by norm_num) (by norm_num) (by decide)
      rw [show ((7:ℤ):ℚ)/((2:ℤ):ℚ) = (7:ℚ)/2 from by push_cast; rfl,
        roundF64_sevenHalves] at h
      exact h
    simp [evaluate, lit, exceptBind_ok, l7, l2, hz1, hz2, hdiv, liftOperand]

/-- C5 witness: the zero-divisor branch applied to 10 / 0 in the fresh
environment. -/
theorem C5_division_rounded_witness :
    evaluate 2 env0 (.Binary (lit 10) .Division (lit 0))
      = .error (.runtime .ZeroDivision) := by
  exact (C5_division_rounded 1 env0 env0 env0 (lit 10) (lit 0) (.Integer 10)
    (.Integer 0) rfl rfl).1 (Or.inl (by decide))

end Lox


namespace Lox

/-- Map on an ok Except value applies the function. -/
theorem exceptMap_ok {ε α β : Type} (f : α → β) (a : α) :
    (Except.map f (Except.ok a) : Except ε β) = .ok (f a) := rfl

/-- Map on an error Except value keeps the error. -/
theorem exceptMap_error {ε α β : Type} (f : α → β) (e : ε) :
    (Except.map f (Except.error e) : Except ε β) = .error e := rfl

/-- Replacing an existing binding keeps the key set of the map unchanged. -/
theorem listInsert_keys (id : String) (v : RuntimeValue) :
    ∀ (f : List (String × RuntimeValue)), hasKey f id = true →
    (listInsert f id v).map Prod.fst = f.map Prod.fst := by
  intro f
  induction f with
  | nil => intro h; simp [hasKey] at h
  | cons p rest ih =>
    intro h
    obtain ⟨k, w⟩ := p
    by_cases hp : k = id
    · subst hp
      simp [listInsert]
    · have hb : (k == id) = false := by simp [hp]
      simp only [hasKey, List.any_cons, hb, Bool.false_or] at h
      simp [listInsert, hb, ih h]

/-- Assignment through a chain holding the name nowhere fails with
VariableNotDefined. -/
theorem assign_not_found : ∀ (env : Environment) (id : String) (v : RuntimeValue),
    chainHas env id = false →
    Environment.assign env id v = .error (.runtime (.VariableNotDefined id))
| .mk values none, id, v, h => by
  simp only [chainHas] at h
  simp [Environment.assign, h]
| .mk values (some parent), id, v, h => by
  simp only [chainHas, Bool.or_eq_false_iff] at h
  simp [Environment.assign, h.1, assign_not_found parent id v h.2, exceptMap_error]

/-- Assignment through a chain holding the name somewhere succeeds and
overwrites exactly the nearest frame holding it. -/
theorem assign_found : ∀ (env : Environment) (id : String) (v : RuntimeValue),
    chainHas env id = true →
    ∃ env2, Environment.assign env id v = .ok env2
      ∧ frames env2 = updateFirst (frames env) id v
| .mk values none, id, v, h => by
  simp only [chainHas] at h
  exact ⟨.mk (listInsert values id v) none,
    by simp [Environment.assign, h],
    by simp [frames, updateFirst, h]⟩
| .mk values (some parent), id, v, h => by
  by_cases hk : hasKey values id
  · exact ⟨.mk (listInsert values id v) (some parent),
      by simp [Environment.assign, hk],
      by simp [frames, updateFirst, hk]⟩
  · have hp : chainHas parent id = true := by
      simp only [chainHas, hk, Bool.false_or] at h
      exact h
    obtain ⟨p2, hassign, hframes⟩ := assign_found parent id v hp
    refine ⟨.mk values (some p2), ?_, ?_⟩
    · simp [Environment.assign, hk, hassign, exceptMap_ok]
    · simp [frames, updateFirst, hk, hframes]

/-- C7: an Assignment expression evaluates the right-hand side first, then
assigns through the chain: the nearest frame already holding the name is
overwritten in place (key sets of every frame unchanged, so no binding is
ever created), a name held nowhere fails with VariableNotDefined, and the
expression's value is Nil. -/
theorem C7_assignment_semantics (fuel : Nat) (env env1 : Environment)
    (id : String) (e : Expression) (v : RuntimeValue)
    (h : evaluate fuel env e = .ok (v, env1)) :
    (evaluate (fuel+1) env (.Assignment id e)
      = (match Environment.assign env1 id v with
         | .ok env2 => .ok (.Nil, env2)
         | .error err => .error err))
  ∧ (chainHas env1 id = false →
      evaluate (fuel+1) env (.Assignment id e)
        = .error (.runtime (.VariableNotDefined id)))
  ∧ (chainHas env1 id = true →
      ∃ env2, evaluate (fuel+1) env (.Assignment id e) = .ok (.Nil, env2)
        ∧ frames env2 = updateFirst (frames env1) id v)
  ∧ (∀ (f : List (String × RuntimeValue)), hasKey f id = true →
      (listInsert f id v).map Prod.fst = f.map Prod.fst) := by
  have hmain : evaluate (fuel+1) env (.Assignment id e)
      = (match Environment.assign env1 id v with
         | .ok env2 => .ok (.Nil, env2)
         | .error err => .error err) := by
    simp [evaluate, h, exceptBind_ok]
  refine ⟨hmain, ?_, ?_, fun f hf => listInsert_keys id v f hf⟩
  · intro hnone
    rw [hmain, assign_not_found env1 id v hnone]
  · intro hsome
    obtain ⟨env2, hassign, hframes⟩ := assign_found env1 id v hsome
    exact ⟨env2, by rw [hmain, hassign], hframes⟩

/-- C7 witness: assigning x in a child scope overwrites the parent binding
in place and yields Nil; assigning an undefined y fails. -/
theorem C7_assignment_semantics_witness :
    evaluate 2 (.mk [] (some (.mk [("x", .Integer 1)] none))) (.Assignment "x" (lit 2))
      = .ok (.Nil, .mk [] (some (.mk [("x", .Integer 2)] none)))
    ∧ evaluate 2 (.mk [] (some (.mk [("x", .Integer 1)] none))) (.Assignment "y" (lit 2))
      = .error (.runtime (.VariableNotDefined "y")) := by
  constructor
  · have h := (C7_assignment_semantics 1 (.mk [] (some (.mk [("x", .Integer 1)] none)))
      (.mk [] (some (.mk [("x", .Integer 1)] none))) "x" (lit 2) (.Integer 2) rfl).1
    rw [h]
    rfl
  · exact (C7_assignment_semantics 1 (.mk [] (some (.mk [("x", .Integer 1)] none)))
      (.mk [] (some (.mk [("x", .Integer 1)] none))) "y" (lit 2) (.Integer 2) rfl).2.1 rfl

end Lox

namespace Lox

/-- Type of the comma token. -/
theorem commaTk_type : commaTk.token_type = .Comma := rfl

/-- Type of a number token. -/
theorem numTk_type (q : ℚ) : (numTk q).token_type = .Number := rfl

/-- Literal payload of a number token. -/
theorem numTk_lit (q : ℚ) : (numTk q).literal = some (.Number q) := rfl

/-- Type of an identifier token. -/
theorem identTk_type (s : String) : (identTk s).token_type = .Identifier := rfl

/-- Unfolding of identToks on a cons cell. -/
theorem identToks_cons (n : String) (ns : List String) :
    identToks (n :: ns) = identTk n :: identToks ns := rfl

/-- Primary fails with ExpressionExprected at a comma. -/
theorem primaryCommaE (f : Nat) (rest : List Token) :
    primaryP (f+1) (commaTk :: rest) = .error (.kind .ExpressionExprected) := by
  simp [primaryP, matchTok, commaTk_type]

/-- Call propagates the primary failure at a comma. -/
theorem callCommaE (f : Nat) (rest : List Token) :
    callP (f+2) (commaTk :: rest) = .error (.kind .ExpressionExprected) := by
  simp [callP, primaryCommaE, exceptBind_error]

/-- Unary falls through to call at a comma. -/
theorem unaryCommaE (f : Nat) (rest : List Token) :
    unaryP (f+3) (commaTk :: rest) = .error (.kind .ExpressionExprected) := by
  simp [unaryP, matchTok, commaTk_type, callCommaE]

/-- Factor propagates the failure at a comma. -/
theorem factorCommaE (f : Nat) (rest : List Token) :
    factorP (f+4) (commaTk :: rest) = .error (.kind .ExpressionExprected) := by
  simp [factorP, checkMany, commaTk_type, unaryCommaE, exceptBind_error]

/-- Term propagates the failure at a comma. -/
theorem termCommaE (f : Nat) (rest : List Token) :
    termP (f+5) (commaTk :: rest) = .error (.kind .ExpressionExprected) := by
  simp [termP, checkMany, commaTk_type, factorCommaE, exceptBind_error]

/-- Comparison propagates the failure at a comma. -/
theorem comparisonCommaE (f : Nat) (rest : List Token) :
    comparisonP (f+6) (commaTk :: rest) = .error (.kind .ExpressionExprected) := by
  simp [comparisonP, checkMany, commaTk_type, termCommaE, exceptBind_error]

/-- Equality propagates the failure at a comma. -/
theorem equalityCommaE (f : Nat) (rest : List Token) :
    equalityP (f+7) (commaTk :: rest) = .error (.kind .ExpressionExprected) := by
  simp [equalityP, checkMany, commaTk_type, comparisonCommaE, exceptBind_error]

/-- Logic-and propagates the failure at a comma. -/
theorem logicAndCommaE (f : Nat) (rest : List Token) :
    logicAndP (f+8) (commaTk :: rest) = .error (.kind .ExpressionExprected) := by
  simp [logicAndP, equalityCommaE, exceptBind_error]

/-- Logic-or propagates the failure at a comma. -/
theorem logicOrCommaE (f : Nat) (rest : List Token) :
    logicOrP (f+9) (commaTk :: rest) = .error (.kind .ExpressionExprected) := by
  simp [logicOrP, logicAndCommaE, exceptBind_error]

/-- Ternary propagates the failure at a comma. -/
theorem ternaryCommaE (f : Nat) (rest : List Token) :
    ternaryP (f+10) (commaTk :: rest) = .error (.kind .ExpressionExprected) := by
  simp [ternaryP, logicOrCommaE, exceptBind_error]

/-- Assignment propagates the failure at a comma. -/
theorem assignmentCommaE (f : Nat) (rest : List Token) :
    assignmentP (f+11) (commaTk :: rest) = .error (.kind .ExpressionExprected) := by
  simp [assignmentP, ternaryCommaE, exceptBind_error]

/-- Expression propagates the failure at a comma. -/
theorem expressionCommaE (f : Nat) (rest : List Token) :
    expressionP (f+12) (commaTk :: rest) = .error (.kind .ExpressionExprected) := by
  simp [expressionP, assignmentCommaE]

/-- The argument loop fails with ExpressionExprected when a comma stands
at an argument position. -/
theorem argumentsCommaE (f : Nat) (rest : List Token) :
    argumentsP (f+13) (commaTk :: rest) = .error (.kind .ExpressionExprected) := by
  simp [argumentsP, isAtEnd, check, commaTk_type, expressionCommaE, exceptBind_error]

/-- Primary consumes a number token into a literal. -/
theorem primaryNumOk (f : Nat) (q : ℚ) (ts : List Token) :
    primaryP (f+1) (numTk q :: ts) = .ok (.Literal (.Number q), ts) := by
  simp [primaryP, matchTok, numTk_type, numTk_lit]

/-- Call parses a number literal and stops before a comma. -/
theorem callNumOk (f : Nat) (q : ℚ) (ts : List Token) :
    callP (f+2) (numTk q :: commaTk :: ts) = .ok (.Literal (.Number q), commaTk :: ts) := by
  have hrest : ∀ (g : Nat) (e : Expression),
      callRestP (g+1) e (commaTk :: ts) = .ok (e, commaTk :: ts) := by
    intro g e
    simp [callRestP, matchTok, commaTk_type]
  simp [callP, primaryNumOk, exceptBind_ok, hrest]

/-- Unary parses a number literal and stops before a comma. -/
theorem unaryNumOk (f : Nat) (q : ℚ) (ts : List Token) :
    unaryP (f+3) (numTk q :: commaTk :: ts) = .ok (.Literal (.Number q), commaTk :: ts) := by
  simp [unaryP, matchTok, numTk_type, callNumOk]

/-- Factor parses a number literal and stops before a comma. -/
theorem factorNumOk (f : Nat) (q : ℚ) (ts : List Token) :
    factorP (f+4) (numTk q :: commaTk :: ts) = .ok (.Literal (.Number q), commaTk :: ts) := by
  have hrest : ∀ (g : Nat) (e : Expression),
      factorRestP (g+1) e (commaTk :: ts) = .ok (e, commaTk :: ts) := by
    intro g e
    simp [factorRestP, matchTok, commaTk_type]
  simp [factorP, checkMany, numTk_type, unaryNumOk, exceptBind_ok, hrest]

/-- Term parses a number literal and stops before a comma. -/
theorem termNumOk (f : Nat) (q : ℚ) (ts : List Token) :
    termP (f+5) (numTk q :: commaTk :: ts) = .ok (.Literal (.Number q), commaTk :: ts) := by
  have hrest : ∀ (g : Nat) (e : Expression),
      termRestP (g+1) e (commaTk :: ts) = .ok (e, commaTk :: ts) := by
    intro g e
    simp [termRestP, matchTok, commaTk_type]
  simp [termP, checkMany, numTk_type, factorNumOk, exceptBind_ok, hrest]

/-- Comparison parses a number literal and stops before a comma. -/
theorem comparisonNumOk (f : Nat) (q : ℚ) (ts : List Token) :
    comparisonP (f+6) (numTk q :: commaTk :: ts) = .ok (.Literal (.Number q), commaTk :: ts) := by
  have hrest : ∀ (g : Nat) (e : Expression),
      cmpRestP (g+1) e (commaTk :: ts) = .ok (e, commaTk :: ts) := by
    intro g e
    simp [cmpRestP, matchTok, commaTk_type]
  simp [comparisonP, checkMany, numTk_type, termNumOk, exceptBind_ok, hrest]

/-- Equality parses a number literal and stops before a comma. -/
theorem equalityNumOk (f : Nat) (q : ℚ) (ts : List Token) :
    equalityP (f+7) (numTk q :: commaTk :: ts) = .ok (.Literal (.Number q), commaTk :: ts) := by
  have hrest : ∀ (g : Nat) (e : Expression),
      eqRestP (g+1) e (commaTk :: ts) = .ok (e, commaTk :: ts) := by
    intro g e
    simp [eqRestP, matchTok, commaTk_type]
  simp [equalityP, checkMany, numTk_type, comparisonNumOk, exceptBind_ok, hrest]

/-- Logic-and parses a number literal and stops before a comma. -/
theorem logicAndNumOk (f : Nat) (q : ℚ) (ts : List Token) :
    logicAndP (f+8) (numTk q :: commaTk :: ts) = .ok (.Literal (.Number q), commaTk :: ts) := by
  have hrest : ∀ (g : Nat) (e : Expression),
      andRestP (g+1) e (commaTk :: ts) = .ok (e, commaTk :: ts) := by
    intro g e
    simp [andRestP, matchTok, commaTk_type]
  simp [logicAndP, equalityNumOk, exceptBind_ok, hrest]

/-- Logic-or parses a number literal and stops before a comma. -/
theorem logicOrNumOk (f : Nat) (q : ℚ) (ts : List Token) :
    logicOrP (f+9) (numTk q :: commaTk :: ts) = .ok (.Literal (.Number q), commaTk :: ts) := by
  have hrest : ∀ (g : Nat) (e : Expression),
      orRestP (g+1) e (commaTk :: ts) = .ok (e, commaTk :: ts) := by
    intro g e
    simp [orRestP, matchTok, commaTk_type]
  simp [logicOrP, logicAndNumOk, exceptBind_ok, hrest]

/-- Ternary parses a number literal and stops before a comma. -/
theorem ternaryNumOk (f : Nat) (q : ℚ) (ts : List Token) :
    ternaryP (f+10) (numTk q :: commaTk :: ts) = .ok (.Literal (.Number q), commaTk :: ts) := by
  simp [ternaryP, logicOrNumOk, exceptBind_ok, matchTok, commaTk_type]

/-- Assignment parses a number literal and stops before a comma. -/
theorem assignmentNumOk (f : Nat) (q : ℚ) (ts : List Token) :
    assignmentP (f+11) (numTk q :: commaTk :: ts) = .ok (.Literal (.Number q), commaTk :: ts) := by
  simp [assignmentP, ternaryNumOk, exceptBind_ok, matchTok, commaTk_type]

/-- Expression parses a number literal and stops before a comma. -/
theorem expressionNumOk (f : Nat) (q : ℚ) (ts : List Token) :
    expressionP (f+12) (numTk q :: commaTk :: ts) = .ok (.Literal (.Number q), commaTk :: ts) := by
  simp [expressionP, assignmentNumOk]

/-- The argument loop fails with ExpressionExprected when a comma follows
a number-literal argument. -/
theorem argumentsNumCommaE (f : Nat) (q : ℚ) (rest : List Token) :
    argumentsP (f+14) (numTk q :: commaTk :: rest) = .error (.kind .ExpressionExprected) := by
  simp [argumentsP, isAtEnd, check, numTk_type, commaTk_type, expressionNumOk,
    expressionCommaE, argumentsCommaE, exceptBind_ok, exceptBind_error]

/-- The parameter loop fails with IdentifierExpected at the first comma,
after consuming any run of identifier parameters. -/
theorem parametersCommaE : ∀ (names : List String) (f : Nat) (rest : List Token),
    parametersP (f + names.length + 1) (identToks names ++ commaTk :: rest)
      = .error (.kind .IdentifierExpected) := by
  intro names
  induction names with
  | nil =>
    intro f rest
    simp [identToks, parametersP, isAtEnd, check, matchTok, commaTk_type]
  | cons n ns ih =>
    intro f rest
    simp only [identToks_cons, List.length_cons, List.cons_append]
    rw [parametersP.eq_def]
    simp only [isAtEnd, check, matchTok, identTk_type, List.any_cons, List.any_nil]
    rw [show f + (ns.length + 1) = f + ns.length + 1 from by omega]
    simp [ih f rest, exceptBind_error]

end Lox

namespace Lox

/-- C10: parameter and argument lists carry no separator token. A comma in
a parameter list fails with IdentifierExpected after any run of parameter
names; a comma at an argument position, in particular right after a
number-literal argument, fails with ExpressionExprected; the concrete
programs fun f(a, b) braces and f(1, 2); fail that way, while the
whitespace-adjacent fun f(a b) braces and f(1 2); parse successfully. -/
theorem C10_lists_have_no_separator :
    (∀ (names : List String) (f : Nat) (rest : List Token),
      parametersP (f + names.length + 1) (identToks names ++ commaTk :: rest)
        = .error (.kind .IdentifierExpected))
  ∧ (∀ (f : Nat) (rest : List Token),
      argumentsP (f+13) (commaTk :: rest) = .error (.kind .ExpressionExprected))
  ∧ (∀ (f : Nat) (q : ℚ) (rest : List Token),
      argumentsP (f+14) (numTk q :: commaTk :: rest) = .error (.kind .ExpressionExprected))
  ∧ parseRun 40 funDeclCommaTokens = .error (.kind .IdentifierExpected)
  ∧ parseRun 40 callCommaTokens = .error (.kind .ExpressionExprected)
  ∧ parseRun 40 funDeclTokens
      = .ok ([.FunctionDeclaration "f" ["a", "b"] (.Block [])], [eofTk])
  ∧ parseRun 40 callTokens
      = .ok ([.Expression (.FunctionInvokation (.Identifier "f")
          [.Literal (.Number 1), .Literal (.Number 2)])], [eofTk]) := by
  exact ⟨parametersCommaE, argumentsCommaE, argumentsNumCommaE, rfl, rfl, rfl, rfl⟩

end Lox
